import Mathlib

/-!
Verification of the smoothcomp-scraper extraction and reconciliation engine.

Go strings are modelled as `List Char`; Go `int` as `Int`; Go pointers to
ints (`*int`) as `Option Int`; `nil` is `none`.  Each definition below is a
direct translation of the correspondingly named Go function.
-/

namespace Smoothcomp

/-- Convert a Lean string literal to the `List Char` representation used
throughout this development. -/
def strL (s : String) : List Char := s.toList

/-! ### Go string primitives -/

/-- Whether `s` begins with `pat` (Go `strings.HasPrefix`). -/
def startsWithL : List Char → List Char → Bool
  | _, [] => true
  | [], _ :: _ => false
  | c :: s, p :: ps => c == p && startsWithL s ps

/-- Index of the first occurrence of `pat` in `s` (Go `strings.Index` /
`bytes.Index`, with `none` for the -1 of Go). -/
def subIndex (s pat : List Char) : Option Nat :=
  match s with
  | [] => if startsWithL [] pat then some 0 else none
  | _ :: t => if startsWithL s pat then some 0 else (subIndex t pat).map (· + 1)

/-- Go `strings.Contains`. -/
def containsStr (s pat : List Char) : Bool := (subIndex s pat).isSome

/-- Go `strings.ToLower`, applied character by character. -/
def listToLower (s : List Char) : List Char := s.map Char.toLower

/-- The white-space test used by Go `strings.TrimSpace` (ASCII part). -/
def isSpaceGo (c : Char) : Bool :=
  c == ' ' || c == '\t' || c == '\n' || c == '\r' || c == '\x0b' || c == '\x0c'

/-- Go `strings.TrimSpace`: drop leading and trailing white space. -/
def trimSpace (s : List Char) : List Char :=
  ((s.dropWhile isSpaceGo).reverse.dropWhile isSpaceGo).reverse

/-- Specification-side notion of substring containment: `pat` occurs
contiguously somewhere inside `s`. -/
def OccursIn (pat s : List Char) : Prop := ∃ a b, s = a ++ pat ++ b

/-! ### Statistics reconciler: paginated match-history walk
(`athlete_profile_scraper.go`) -/

/-- One match from the paginated profile events feed
(Go struct `profileEventMatch`). -/
structure ProfileEventMatch where
  isWinner : Bool
  outcome : List Char
deriving DecidableEq

/-- Running totals accumulated by the walk (Go struct `profileStats`). -/
structure ProfileStatsAcc where
  totalWins : Int
  totalLosses : Int
  winsBySubmission : Int
  winsByPoints : Int
  winsByDecision : Int
  winsByDQ : Int
  lossesBySubmission : Int
  lossesByPoints : Int
  lossesByDecision : Int
  lossesByDQ : Int
deriving DecidableEq

/-- The all-zero accumulator (`profileStats{}` in Go). -/
def emptyStats : ProfileStatsAcc := ⟨0, 0, 0, 0, 0, 0, 0, 0, 0, 0⟩

/-- Go `classifyOutcome`: map an outcome string to a method tag. -/
def classifyOutcome (outcome : List Char) : List Char :=
  if containsStr outcome (strL "submission") then strL "submission"
  else if containsStr outcome (strL "decision") then strL "decision"
  else if containsStr outcome (strL "points") then strL "points"
  else if containsStr outcome (strL "dq") || containsStr outcome (strL "disqualification")
    then strL "dq"
  else []

/-- Go `applyEventMatchStats`: accumulate one match into the running totals,
skipping byes and walkovers. -/
def applyEventMatchStats (stats : ProfileStatsAcc) (m : ProfileEventMatch) :
    ProfileStatsAcc :=
  let outcome := listToLower (trimSpace m.outcome)
  if containsStr outcome (strL "bye") || containsStr outcome (strL "walkover") then
    stats
  else
    let method := classifyOutcome outcome
    if m.isWinner then
      let s := { stats with totalWins := stats.totalWins + 1 }
      if method = strL "submission" then
        { s with winsBySubmission := s.winsBySubmission + 1 }
      else if method = strL "decision" then
        { s with winsByDecision := s.winsByDecision + 1 }
      else if method = strL "points" then
        { s with winsByPoints := s.winsByPoints + 1 }
      else if method = strL "dq" then
        { s with winsByDQ := s.winsByDQ + 1 }
      else s
    else
      let s := { stats with totalLosses := stats.totalLosses + 1 }
      if method = strL "submission" then
        { s with lossesBySubmission := s.lossesBySubmission + 1 }
      else if method = strL "decision" then
        { s with lossesByDecision := s.lossesByDecision + 1 }
      else if method = strL "points" then
        { s with lossesByPoints := s.lossesByPoints + 1 }
      else if method = strL "dq" then
        { s with lossesByDQ := s.lossesByDQ + 1 }
      else s

/-- The nested loop of `fetchProfileEventStats` over all matches of all
registrations of all pages, flattened to one match list. -/
def walkMatches (ms : List ProfileEventMatch) : ProfileStatsAcc :=
  ms.foldl applyEventMatchStats emptyStats

/-- The four-match history from the specification example. -/
def exampleMatches : List ProfileEventMatch :=
  [⟨true, strL "submission"⟩, ⟨true, strL "points"⟩,
   ⟨false, strL "decision"⟩, ⟨false, strL "bye"⟩]

/-! ### Statistics reconciler: profile data and the merge / backfill policy
(`athlete_profile_scraper.go`) -/

/-- Go struct `AthleteProfileData`: optional fields, `none` when no signal
was found. -/
@[ext]
structure AthleteProfileData where
  beltRank : Option (List Char)
  totalWins : Option Int
  winsBySubmission : Option Int
  winsByPoints : Option Int
  winsByDecision : Option Int
  winsByDQ : Option Int
  totalLosses : Option Int
  lossesBySubmission : Option Int
  lossesByPoints : Option Int
  lossesByDecision : Option Int
  lossesByDQ : Option Int
deriving DecidableEq

/-- The empty profile record (`AthleteProfileData{}` in Go). -/
def emptyProfile : AthleteProfileData :=
  ⟨none, none, none, none, none, none, none, none, none, none, none⟩

/-- Go `mergeProfileStatsFromEvents`: every field for which the paginated
walk produced a positive count overrides the page value; the other fields
keep the page value.  Each Go line `if stats.X > 0 { data.X = &stats.X }`
becomes one field update. -/
def mergeProfileStatsFromEvents (data : AthleteProfileData)
    (stats : ProfileStatsAcc) : AthleteProfileData :=
  { data with
    totalWins := if 0 < stats.totalWins then some stats.totalWins else data.totalWins
    totalLosses := if 0 < stats.totalLosses then some stats.totalLosses else data.totalLosses
    winsBySubmission :=
      if 0 < stats.winsBySubmission then some stats.winsBySubmission else data.winsBySubmission
    winsByPoints :=
      if 0 < stats.winsByPoints then some stats.winsByPoints else data.winsByPoints
    winsByDecision :=
      if 0 < stats.winsByDecision then some stats.winsByDecision else data.winsByDecision
    winsByDQ := if 0 < stats.winsByDQ then some stats.winsByDQ else data.winsByDQ
    lossesBySubmission :=
      if 0 < stats.lossesBySubmission then some stats.lossesBySubmission
      else data.lossesBySubmission
    lossesByPoints :=
      if 0 < stats.lossesByPoints then some stats.lossesByPoints else data.lossesByPoints
    lossesByDecision :=
      if 0 < stats.lossesByDecision then some stats.lossesByDecision else data.lossesByDecision
    lossesByDQ := if 0 < stats.lossesByDQ then some stats.lossesByDQ else data.lossesByDQ }

/-- The `total` accumulated over the win sub-categories in
`fillTotalsFromBreakdown` (each non-nil field contributes its value). -/
def winBreakdownSum (d : AthleteProfileData) : Int :=
  d.winsBySubmission.getD 0 + d.winsByDecision.getD 0 +
    d.winsByPoints.getD 0 + d.winsByDQ.getD 0

/-- The `total` accumulated over the loss sub-categories in
`fillTotalsFromBreakdown`. -/
def lossBreakdownSum (d : AthleteProfileData) : Int :=
  d.lossesBySubmission.getD 0 + d.lossesByDecision.getD 0 +
    d.lossesByPoints.getD 0 + d.lossesByDQ.getD 0

/-- Go `fillTotalsFromBreakdown`: when an aggregate total is nil or zero and
the sub-category sum is positive, the aggregate becomes that sum. -/
def fillTotalsFromBreakdown (d : AthleteProfileData) : AthleteProfileData :=
  { d with
    totalWins :=
      if (d.totalWins = none ∨ d.totalWins = some 0) ∧ 0 < winBreakdownSum d then
        some (winBreakdownSum d)
      else d.totalWins
    totalLosses :=
      if (d.totalLosses = none ∨ d.totalLosses = some 0) ∧ 0 < lossBreakdownSum d then
        some (lossBreakdownSum d)
      else d.totalLosses }

/-- Go `applyStat`: route a labelled numeric value to the matching field,
writing it only when the field is still unset. -/
def applyStat (data : AthleteProfileData) (label0 : List Char) (value : Int) :
    AthleteProfileData :=
  let label := listToLower label0
  if containsStr label (strL "win") then
    if containsStr label (strL "submission") then
      if data.winsBySubmission = none then
        { data with winsBySubmission := some value } else data
    else if containsStr label (strL "points") then
      if data.winsByPoints = none then
        { data with winsByPoints := some value } else data
    else if containsStr label (strL "decision") then
      if data.winsByDecision = none then
        { data with winsByDecision := some value } else data
    else if containsStr label (strL "dq") || containsStr label (strL "disqualification") then
      if data.winsByDQ = none then
        { data with winsByDQ := some value } else data
    else
      if data.totalWins = none then
        { data with totalWins := some value } else data
  else if containsStr label (strL "loss") then
    if containsStr label (strL "submission") then
      if data.lossesBySubmission = none then
        { data with lossesBySubmission := some value } else data
    else if containsStr label (strL "points") then
      if data.lossesByPoints = none then
        { data with lossesByPoints := some value } else data
    else if containsStr label (strL "decision") then
      if data.lossesByDecision = none then
        { data with lossesByDecision := some value } else data
    else if containsStr label (strL "dq") || containsStr label (strL "disqualification") then
      if data.lossesByDQ = none then
        { data with lossesByDQ := some value } else data
    else
      if data.totalLosses = none then
        { data with totalLosses := some value } else data
  else data

/-- Go `applyFightStats`, write phase: the badge-list tallies (computed by
the DOM walk, taken here as an input) are written into every still-unset
field whose tally is positive.  Each Go line
`if data.X == nil && x > 0 { data.X = &x }` becomes one field update. -/
def applyFightStats (c : ProfileStatsAcc) (d : AthleteProfileData) :
    AthleteProfileData :=
  { d with
    totalWins :=
      if d.totalWins = none ∧ 0 < c.totalWins then some c.totalWins else d.totalWins
    totalLosses :=
      if d.totalLosses = none ∧ 0 < c.totalLosses then some c.totalLosses else d.totalLosses
    winsBySubmission :=
      if d.winsBySubmission = none ∧ 0 < c.winsBySubmission then some c.winsBySubmission
      else d.winsBySubmission
    winsByDecision :=
      if d.winsByDecision = none ∧ 0 < c.winsByDecision then some c.winsByDecision
      else d.winsByDecision
    winsByPoints :=
      if d.winsByPoints = none ∧ 0 < c.winsByPoints then some c.winsByPoints
      else d.winsByPoints
    winsByDQ := if d.winsByDQ = none ∧ 0 < c.winsByDQ then some c.winsByDQ else d.winsByDQ
    lossesBySubmission :=
      if d.lossesBySubmission = none ∧ 0 < c.lossesBySubmission then some c.lossesBySubmission
      else d.lossesBySubmission
    lossesByDecision :=
      if d.lossesByDecision = none ∧ 0 < c.lossesByDecision then some c.lossesByDecision
      else d.lossesByDecision
    lossesByPoints :=
      if d.lossesByPoints = none ∧ 0 < c.lossesByPoints then some c.lossesByPoints
      else d.lossesByPoints
    lossesByDQ :=
      if d.lossesByDQ = none ∧ 0 < c.lossesByDQ then some c.lossesByDQ else d.lossesByDQ }

/-- One iteration of the `applyLegendStats` loop body in Go, for a legend
entry whose numeric value parsed; the label is already lower-cased and
trimmed as in the source. -/
def applyLegendItem (isWin : Bool) (d : AthleteProfileData) (label : List Char)
    (value : Int) : AthleteProfileData :=
  if isWin then
    if containsStr label (strL "submission") = true ∧ d.winsBySubmission = none then
      { d with winsBySubmission := some value }
    else if containsStr label (strL "decision") = true ∧ d.winsByDecision = none then
      { d with winsByDecision := some value }
    else if containsStr label (strL "points") = true ∧ d.winsByPoints = none then
      { d with winsByPoints := some value }
    else if (containsStr label (strL "dq") || containsStr label (strL "disqualification")) = true
        ∧ d.winsByDQ = none then
      { d with winsByDQ := some value }
    else d
  else
    if containsStr label (strL "submission") = true ∧ d.lossesBySubmission = none then
      { d with lossesBySubmission := some value }
    else if containsStr label (strL "decision") = true ∧ d.lossesByDecision = none then
      { d with lossesByDecision := some value }
    else if containsStr label (strL "points") = true ∧ d.lossesByPoints = none then
      { d with lossesByPoints := some value }
    else if (containsStr label (strL "dq") || containsStr label (strL "disqualification")) = true
        ∧ d.lossesByDQ = none then
      { d with lossesByDQ := some value }
    else d

/-- Go `applyLegendStats`: fold the loop body over the legend entries
(the DOM selection, taken here as the extracted label/value list). -/
def applyLegendStats (isWin : Bool) (items : List (List Char × Int))
    (d : AthleteProfileData) : AthleteProfileData :=
  items.foldl (fun d it => applyLegendItem isWin d it.1 it.2) d

/-- How one optional statistics field may evolve across a reconciliation
step: unchanged, previously unset, or overwritten with a positive value. -/
def FieldStep (o n : Option Int) : Prop :=
  n = o ∨ o = none ∨ ∃ k : Int, 0 < k ∧ n = some k

/-- The no-zero-clobber contract for one field: a zero is only ever stored
where nothing, or an observed zero, was stored before. -/
def FieldZeroOK (o n : Option Int) : Prop := n = some 0 → o = none ∨ o = some 0

/-- `FieldStep` on every statistics field of a profile record. -/
def StepOK (d e : AthleteProfileData) : Prop :=
  FieldStep d.totalWins e.totalWins ∧
  FieldStep d.winsBySubmission e.winsBySubmission ∧
  FieldStep d.winsByPoints e.winsByPoints ∧
  FieldStep d.winsByDecision e.winsByDecision ∧
  FieldStep d.winsByDQ e.winsByDQ ∧
  FieldStep d.totalLosses e.totalLosses ∧
  FieldStep d.lossesBySubmission e.lossesBySubmission ∧
  FieldStep d.lossesByPoints e.lossesByPoints ∧
  FieldStep d.lossesByDecision e.lossesByDecision ∧
  FieldStep d.lossesByDQ e.lossesByDQ

/-- `FieldZeroOK` on every statistics field of a profile record. -/
def NoZeroClobber (d e : AthleteProfileData) : Prop :=
  FieldZeroOK d.totalWins e.totalWins ∧
  FieldZeroOK d.winsBySubmission e.winsBySubmission ∧
  FieldZeroOK d.winsByPoints e.winsByPoints ∧
  FieldZeroOK d.winsByDecision e.winsByDecision ∧
  FieldZeroOK d.winsByDQ e.winsByDQ ∧
  FieldZeroOK d.totalLosses e.totalLosses ∧
  FieldZeroOK d.lossesBySubmission e.lossesBySubmission ∧
  FieldZeroOK d.lossesByPoints e.lossesByPoints ∧
  FieldZeroOK d.lossesByDecision e.lossesByDecision ∧
  FieldZeroOK d.lossesByDQ e.lossesByDQ

/-- A profile record whose only signal is an observed zero in one win
sub-category. -/
def zeroSubProfile : AthleteProfileData :=
  { emptyProfile with winsBySubmission := some 0 }

/-- A profile record with two win sub-categories known and no aggregate. -/
def sampleBreakdownProfile : AthleteProfileData :=
  { emptyProfile with winsBySubmission := some 2, winsByPoints := some 3 }

/-! ### Host resolver (`DetectEventSubdomain` and helpers) -/

/-- Result of one existence probe: HTTP status and the Location header
(empty when absent).  A transport error is modelled as `none` from the
probe oracle. -/
structure ProbeResp where
  status : Nat
  location : List Char
deriving DecidableEq

/-- Go `containsSubstring` (transcribed literally): despite its name and
doc comment it does not test substring containment but equality, a
`substr + "/"` head, or a `substr` tail. -/
def containsSubstring (str substr : List Char) : Bool :=
  decide (substr.length ≤ str.length) &&
    (str == substr ||
      (decide (substr.length < str.length) &&
        (str.take (substr.length + 1) == substr ++ ['/'] ||
         str.drop (str.length - substr.length) == substr)))

/-- The fixed ordered candidate list of `DetectEventSubdomain`. -/
def subdomains : List (List Char) :=
  [strL "", strL "adcc", strL "ibjjf", strL "uaejjf", strL "ajp",
   strL "sjjif", strL "newbreed", strL "grappling"]

/-- The `baseURL` computed for one candidate inside the loop. -/
def candidateBase (sub : List Char) : List Char :=
  if sub = [] then strL "smoothcomp.com" else sub ++ strL ".smoothcomp.com"

/-- The `eventURL` probed for one candidate. -/
def eventProbeURL (eventID sub : List Char) : List Char :=
  strL "https://" ++ candidateBase sub ++ strL "/en/event/" ++ eventID

/-- The acceptance test of one loop iteration of `DetectEventSubdomain`:
a direct 200, or a 301/302 whose non-empty Location passes
`containsSubstring` against the candidate base URL.  A probe error
(`none`) is rejection. -/
def probeAccepted (probe : List Char → Option ProbeResp)
    (eventID sub : List Char) : Bool :=
  match probe (eventProbeURL eventID sub) with
  | none => false
  | some r =>
    r.status == 200 ||
      ((r.status == 301 || r.status == 302) &&
        (!r.location.isEmpty && containsSubstring r.location (candidateBase sub)))

/-- The candidate loop of Go `DetectEventSubdomain`. -/
def detectLoop (probe : List Char → Option ProbeResp) (eventID : List Char) :
    List (List Char) → List Char
  | [] => strL "smoothcomp.com"
  | sub :: rest =>
    if probeAccepted probe eventID sub then candidateBase sub
    else detectLoop probe eventID rest

/-- Go `DetectEventSubdomain`: first accepted candidate wins, primary
domain on exhaustion. -/
def DetectEventSubdomain (probe : List Char → Option ProbeResp)
    (eventID : List Char) : List Char :=
  detectLoop probe eventID subdomains

/-- The probe requests issued by the candidate loop, in order: one per
candidate until (and including) the first accepted one. -/
def probeTraceLoop (probe : List Char → Option ProbeResp) (eventID : List Char) :
    List (List Char) → List (List Char)
  | [] => []
  | sub :: rest =>
    eventProbeURL eventID sub ::
      (if probeAccepted probe eventID sub then []
       else probeTraceLoop probe eventID rest)

/-- The probe requests issued by Go `DetectEventSubdomain`. -/
def detectProbeTrace (probe : List Char → Option ProbeResp)
    (eventID : List Char) : List (List Char) :=
  probeTraceLoop probe eventID subdomains

/-- A probe oracle for the C4 scenario: the `adcc` candidate answers with
a 301 redirect to its own event page; every other probe fails. -/
def redirectProbe : List Char → Option ProbeResp := fun url =>
  if url = eventProbeURL (strL "25258") (strL "adcc") then
    some ⟨301, strL "https://adcc.smoothcomp.com/en/event/25258"⟩
  else none

/-! ### Structured extractor: embedded events array (`extractEventsArray`) -/

/-- The marker located by `extractEventsArray`. -/
def markerStr : List Char := strL "var events"

/-- Go `bytes.IndexByte` (with `none` for the -1 of Go). -/
def byteIndex : List Char → Char → Option Nat
  | [], _ => none
  | c :: t, b => if c = b then some 0 else (byteIndex t b).map (· + 1)

/-- The scanning loop of Go `extractEventsArray`: starting at the opening
bracket with the given depth / in-string / escape state, return how many
characters are consumed up to and including the bracket that brings the
depth to zero.  Quoted content, including escaped characters, never touches
the depth. -/
def scanEnd : List Char → Int → Bool → Bool → Option Nat
  | [], _, _, _ => none
  | c :: rest, depth, inString, esc =>
    if inString then
      if esc then (scanEnd rest depth true false).map (· + 1)
      else if c = '\\' then (scanEnd rest depth true true).map (· + 1)
      else if c = '"' then (scanEnd rest depth false false).map (· + 1)
      else (scanEnd rest depth true false).map (· + 1)
    else if c = '"' then (scanEnd rest depth true false).map (· + 1)
    else
      let depth2 := if c = '[' then depth + 1 else depth
      if c = ']' then
        if depth2 - 1 = 0 then some 1
        else (scanEnd rest (depth2 - 1) false false).map (· + 1)
      else (scanEnd rest depth2 false false).map (· + 1)

/-- Go `extractEventsArray`: locate the marker, find the first opening
bracket after it, scan to the matching closing bracket and return that
span. -/
def extractEventsArray (body : List Char) : Option (List Char) :=
  match subIndex body markerStr with
  | none => none
  | some start =>
    match byteIndex (body.drop start) '[' with
    | none => none
    | some off =>
      match scanEnd (body.drop (start + off)) 0 false false with
      | none => none
      | some n => some ((body.drop (start + off)).take n)

/-- Well-formed content of a quoted string as the scanner sees it: a
sequence of escape pairs and plain characters (any character other than an
unescaped backslash or quote — brackets are allowed). -/
inductive StrChars : List Char → Prop
  | nil : StrChars []
  | esc (c : Char) (s : List Char) : StrChars s → StrChars ('\\' :: c :: s)
  | chr (c : Char) (s : List Char) : c ≠ '\\' → c ≠ '"' → StrChars s →
      StrChars (c :: s)

/-- Well-formed bracket-balanced item sequence (the content between an
opening bracket and its matching closing bracket): plain characters,
quoted strings and nested balanced arrays. -/
inductive ArrChars : List Char → Prop
  | nil : ArrChars []
  | chr (c : Char) (s : List Char) : c ≠ '[' → c ≠ ']' → c ≠ '"' →
      ArrChars s → ArrChars (c :: s)
  | str (s t : List Char) : StrChars s → ArrChars t →
      ArrChars ('"' :: s ++ '"' :: t)
  | arr (s t : List Char) : ArrChars s → ArrChars t →
      ArrChars ('[' :: s ++ ']' :: t)

/-- A concrete well-formed item sequence: one quoted string containing a
bracket and an escaped quote, then a number. -/
def sampleArr : List Char := '"' :: (['[', '\\', '"', ']'] ++ '"' :: [',', '1'])

/-! ### Structured extractor: event records and required-field filtering
(`events scraper` file) -/

/-- Go `strings.ToUpper`, applied character by character. -/
def listToUpper (s : List Char) : List Char := s.map Char.toUpper

/-- Go `strings.Trim(s, string(c))`: drop leading and trailing copies of
one character. -/
def trimChar (s : List Char) (c : Char) : List Char :=
  ((s.dropWhile (· == c)).reverse.dropWhile (· == c)).reverse

/-- Go `strings.TrimRight(s, string(c))`. -/
def trimRightChar (s : List Char) (c : Char) : List Char :=
  (s.reverse.dropWhile (· == c)).reverse

/-- Go `strconv.Itoa`. -/
def intToStr (n : Int) : List Char :=
  if n < 0 then '-' :: Nat.toDigits 10 n.natAbs else Nat.toDigits 10 n.natAbs

/-- Go struct `embeddedEvent` (the decoded JSON payload items). -/
structure EmbeddedEvent where
  id : Int
  title : List Char
  coverImage : List Char
  coverImageFallback : List Char
  url : List Char
  daysToStart : Option Int
  eventPeriod : List Char
  eventEnded : Bool
  locationCountry : List Char
  locationCountryHuman : List Char
  locationCity : List Char
  startDate : List Char
  endDate : List Char
deriving DecidableEq

/-- Go struct `models.Event`, restricted to the scraped fields (the
database identifier and timestamps are managed elsewhere). -/
structure EventRec where
  externalID : List Char
  name : List Char
  eventURL : List Char
  imageURL : List Char
  city : List Char
  country : List Char
  countryCode : List Char
  dateText : List Char
  daysText : List Char
  eventType : List Char
  sectionLabel : List Char
deriving DecidableEq

/-- The per-item record construction of Go `parseEventsFromScript`. -/
def eventFromEmbedded (eventType : List Char) (item : EmbeddedEvent) : EventRec :=
  { externalID := intToStr item.id
    name := trimSpace item.title
    eventURL := trimSpace item.url
    imageURL :=
      if (trimSpace item.coverImage).isEmpty then trimSpace item.coverImageFallback
      else trimSpace item.coverImage
    city := trimSpace item.locationCity
    country := trimSpace item.locationCountryHuman
    countryCode := listToUpper (trimSpace item.locationCountry)
    dateText := trimSpace item.eventPeriod
    daysText :=
      match item.daysToStart with
      | none => []
      | some ds =>
        if 0 ≤ ds then intToStr ds ++ strL " days left"
        else intToStr (-ds) ++ strL " days ago"
    eventType := eventType
    sectionLabel := [] }

/-- The record loop of Go `parseEventsFromScript`: a record is appended
only when both its URL and its name are non-empty. -/
def parseEventsFromScript (eventType : List Char)
    (payload : List EmbeddedEvent) : List EventRec :=
  payload.foldl
    (fun acc item =>
      let e := eventFromEmbedded eventType item
      if !e.eventURL.isEmpty && !e.name.isEmpty then acc ++ [e] else acc)
    []

/-- Go `normalizeEventURL`. -/
def normalizeEventURL (baseURL href0 : List Char) : List Char :=
  let href := trimSpace href0
  if href.isEmpty then []
  else if startsWithL href (strL "http://") || startsWithL href (strL "https://") then href
  else
    let base := trimRightChar baseURL '/'
    if startsWithL href (strL "/") then base ++ href
    else base ++ strL "/" ++ href

/-- Go `extractEventLocation`, over the raw texts of the location spans:
trim each, drop empties, then all but the last joined with a comma form
the city and the last part is the country. -/
def extractEventLocation (spans : List (List Char)) : List Char × List Char :=
  let parts := spans.foldl
    (fun acc t =>
      let text := trimChar (trimSpace t) ','
      if text = [] ∨ text = [','] then acc else acc ++ [text])
    []
  match parts with
  | [] => ([], [])
  | [p] => ([], p)
  | _ =>
    (List.intercalate (strL ", ") (parts.take (parts.length - 1)), parts.getLastD [])

/-- Go `strings.Split(s, "/")` for the one-character separator. -/
def splitSlash : List Char → List (List Char)
  | [] => [[]]
  | c :: rest =>
    if c = '/' then [] :: splitSlash rest
    else
      match splitSlash rest with
      | [] => [[c]]
      | p :: ps => (c :: p) :: ps

/-- Go `ExtractIDFromURL`: split on slashes and take the last part. -/
def ExtractIDFromURL (url : List Char) : List Char :=
  let parts := splitSlash url
  if 0 < parts.length then parts.getLastD [] else []

/-- The raw selector results for one event card of the markup fallback in
`ScrapeEventsByCountry` (the DOM queries themselves are outside the
model). -/
structure EventCard where
  sectionText : List Char
  titleText : List Char
  titleHref : List Char
  imageHref : List Char
  imgSrc : List Char
  flagCountryCode : List Char
  locationSpans : List (List Char)
  dateText : List Char
  daysText : List Char
deriving DecidableEq

/-- The per-card record construction of the markup fallback in
`ScrapeEventsByCountry`. -/
def eventFromCard (baseURL countryCode eventType : List Char)
    (card : EventCard) : EventRec :=
  let href := if card.titleHref.isEmpty then card.imageHref else card.titleHref
  let eventURL := normalizeEventURL baseURL href
  let loc := extractEventLocation card.locationSpans
  { externalID := ExtractIDFromURL eventURL
    name := trimSpace card.titleText
    eventURL := eventURL
    imageURL := trimSpace card.imgSrc
    city := loc.1
    country := loc.2
    countryCode :=
      if card.flagCountryCode.isEmpty then listToUpper (trimSpace countryCode)
      else card.flagCountryCode
    dateText := trimSpace card.dateText
    daysText := trimSpace card.daysText
    eventType := eventType
    sectionLabel := trimSpace card.sectionText }

/-- The card loop of the markup fallback in `ScrapeEventsByCountry`: a
record is appended only when both its URL and its name are non-empty. -/
def scrapeEventCards (baseURL countryCode eventType : List Char)
    (cards : List EventCard) : List EventRec :=
  cards.foldl
    (fun acc card =>
      let e := eventFromCard baseURL countryCode eventType card
      if !e.eventURL.isEmpty && !e.name.isEmpty then acc ++ [e] else acc)
    []

/-! ### Identifier extraction and the event-detail fetch prelude -/

/-- Outcome of the argument-resolution prelude of Go `FetchEventDetails`
(everything before the first page request). -/
inductive FetchPrep where
  | errMissingArgs : FetchPrep
  | errResolveID : FetchPrep
  | ready : List Char → List Char → FetchPrep
deriving DecidableEq

/-- The prelude of Go `FetchEventDetails` (lines before the page GET),
together with the list of probe requests it issued: resolve the event URL
(detecting the subdomain only when no URL was given), then resolve the
event identifier from the URL, failing when it comes out empty. -/
def fetchEventDetailsPrep (probe : List Char → Option ProbeResp)
    (eventID0 eventURL0 : List Char) : FetchPrep × List (List Char) :=
  if eventID0 = [] ∧ eventURL0 = [] then (FetchPrep.errMissingArgs, [])
  else
    let eventURL :=
      if eventURL0 = [] then
        strL "https://" ++ DetectEventSubdomain probe eventID0 ++
          strL "/en/event/" ++ eventID0
      else eventURL0
    let probes := if eventURL0 = [] then detectProbeTrace probe eventID0 else []
    let eventID := if eventID0 = [] then ExtractIDFromURL eventURL else eventID0
    if eventID = [] then (FetchPrep.errResolveID, probes)
    else (FetchPrep.ready eventID eventURL, probes)

/-- A probe oracle on which every request fails. -/
def noProbe : List Char → Option ProbeResp := fun _ => none

/-! ### Entity upsert layer (`saveAthleteFromEvent`, `SaveAcademy`)

The persistent store is modelled as in-memory row lists.  GORM `First`
with a key predicate becomes `List.find?` (under the uniqueness invariants
below the match is unique, so scan order does not matter); `Create`
becomes an append with a fresh primary key and, for a zero creation
timestamp, the current time (`autoCreateTime`); `Save` on a struct whose
primary key is set replaces that row with exactly the given field values
(GORM `Save` selects all fields when updating).  Time is an abstract
`Int`; the Go `float64` weight is carried as an opaque `Int` (it is never
computed with). -/

/-- Go struct `AthleteEventData` (part of the participants API scraper). -/
structure AthleteEventData where
  smoothCompID : List Char
  firstName : List Char
  lastName : List Char
  middleName : List Char
  fullName : List Char
  country : List Char
  countryCode : List Char
  birthYear : Int
  age : Int
  academyName : List Char
  affiliationName : List Char
  profileURL : List Char
  imageURL : List Char
  division : List Char
  ageCategory : List Char
  rank : List Char
  weightClass : List Char
  actualWeight : Int
  seed : Int
  ranking : Int
  gender : List Char
deriving DecidableEq

/-- A persisted row of `models.Athlete` (statistics fields omitted: the
event upsert never reads or writes them, and GORM leaves unlisted columns
of an updated struct at their loaded values because the struct was loaded
first). -/
structure AthleteRow where
  id : Nat
  externalID : List Char
  firstName : List Char
  lastName : List Char
  fullName : List Char
  countryCode : List Char
  nationality : List Char
  birthYear : Int
  age : Int
  profileURL : List Char
  imageURL : List Char
  avatarURL : List Char
  affiliationName : List Char
  academyExternalID : List Char
  gender : List Char
  scrapedAt : Int
  createdAt : Int
deriving DecidableEq

/-- A persisted row of `models.EventRegistration`. -/
structure RegistrationRow where
  id : Nat
  athleteID : Nat
  eventID : List Char
  eventName : List Char
  division : List Char
  ageCategory : List Char
  rank : List Char
  weightClass : List Char
  actualWeight : Int
  seed : Int
  ranking : Int
  eventCardURL : List Char
  registrationDate : Int
  createdAt : Int
deriving DecidableEq

/-- A persisted row of `models.Academy`. -/
structure AcademyRow where
  id : Nat
  externalID : List Char
  name : List Char
  slug : List Char
  country : List Char
  countryCode : List Char
  logoURL : List Char
  coverURL : List Char
  bio : List Char
  website : List Char
  instagram : List Char
  facebook : List Char
  totalWins : Int
  totalLosses : Int
  athleteCount : Int
  goldMedals : Int
  silverMedals : Int
  bronzeMedals : Int
  scrapedAt : Int
  createdAt : Int
deriving DecidableEq

/-- The persistent store. -/
structure DBState where
  athletes : List AthleteRow
  registrations : List RegistrationRow
  academies : List AcademyRow
  nextAthleteID : Nat
  nextRegistrationID : Nat
  nextAcademyID : Nat
deriving DecidableEq

/-- The natural-key predicate for athletes (query `external_id = ?`). -/
def athleteExtP (ext : List Char) : AthleteRow → Bool :=
  fun a => a.externalID == ext

/-- The composite natural-key predicate for registrations (query
`athlete_id = ? AND event_id = ? AND division = ? AND age_category = ?
AND rank = ? AND weight_class = ?`). -/
def regKeyP (aid : Nat) (eventID division ageCategory rank weightClass : List Char) :
    RegistrationRow → Bool :=
  fun r => r.athleteID == aid && r.eventID == eventID && r.division == division &&
    r.ageCategory == ageCategory && r.rank == rank && r.weightClass == weightClass

/-- The academy lookup by name used to resolve the association
(best-effort: an unresolved academy yields the empty external id, like the
zero-valued Go struct after a missed `First`). -/
def lookupAcademyExt (db : DBState) (name : List Char) : List Char :=
  match db.academies.find? (fun ac => ac.name == name) with
  | some ac => ac.externalID
  | none => []

/-- The `models.EventRegistration{...}` literal built by
`saveAthleteFromEvent`: a fresh struct, so its identifier and creation
timestamp are zero values. -/
def incomingRegRow (athleteID : Nat) (data : AthleteEventData)
    (eventID eventName : List Char) (now : Int) : RegistrationRow :=
  { id := 0, athleteID := athleteID, eventID := eventID, eventName := eventName
    division := data.division, ageCategory := data.ageCategory
    rank := data.rank, weightClass := data.weightClass
    actualWeight := data.actualWeight, seed := data.seed
    ranking := data.ranking, eventCardURL := []
    registrationDate := now, createdAt := 0 }

/-- The `models.Athlete{...}` literal built by the create branch of
`saveAthleteFromEvent` (primary key assigned by the insert, creation
timestamp filled by `autoCreateTime`). -/
def createdAthleteRow (db : DBState) (data : AthleteEventData) (now : Int) :
    AthleteRow :=
  { id := db.nextAthleteID
    externalID := data.smoothCompID
    firstName := data.firstName, lastName := data.lastName
    fullName := data.fullName, countryCode := data.countryCode
    nationality := data.country, birthYear := data.birthYear
    age := data.age, profileURL := data.profileURL
    imageURL := data.imageURL, avatarURL := data.imageURL
    affiliationName := data.affiliationName
    academyExternalID :=
      if data.academyName = [] then [] else lookupAcademyExt db data.academyName
    gender := data.gender, scrapedAt := now, createdAt := now }

/-- The field assignments of the update branch of `saveAthleteFromEvent`:
the loaded row with the incoming values written over it (the academy
association is touched only when an academy name is present). -/
def updatedAthleteRow (db : DBState) (data : AthleteEventData) (now : Int)
    (existing : AthleteRow) : AthleteRow :=
  { existing with
    firstName := data.firstName, lastName := data.lastName
    fullName := data.fullName, countryCode := data.countryCode
    nationality := data.country, birthYear := data.birthYear
    age := data.age, profileURL := data.profileURL
    imageURL := data.imageURL, avatarURL := data.imageURL
    affiliationName := data.affiliationName
    academyExternalID :=
      if data.academyName = [] then existing.academyExternalID
      else lookupAcademyExt db data.academyName
    gender := data.gender, scrapedAt := now }

/-- The registration half of the `saveAthleteFromEvent` transaction: build
the incoming registration struct, look it up by the composite key, then
create it (filling the creation timestamp) or save it forward carrying
over only the row identity. -/
def saveRegistrationStep (db : DBState) (athleteID : Nat)
    (data : AthleteEventData) (eventID eventName : List Char) (now : Int) :
    DBState :=
  match db.registrations.find?
      (regKeyP athleteID eventID data.division data.ageCategory data.rank
        data.weightClass) with
  | none =>
    { db with
      registrations :=
        db.registrations ++
          [{ incomingRegRow athleteID data eventID eventName now with
              id := db.nextRegistrationID, createdAt := now }]
      nextRegistrationID := db.nextRegistrationID + 1 }
  | some existingReg =>
    { db with
      registrations :=
        db.registrations.map (fun r =>
          if r.id == existingReg.id then
            { incomingRegRow athleteID data eventID eventName now with
                id := existingReg.id }
          else r) }

/-- Go `saveAthleteFromEvent`: inside one transaction, find-or-create the
athlete by external id (create copies the incoming fields and resolves the
academy by name; update reloads the stored row, overwrites the incoming
fields and saves), then insert-or-update the event registration by its
composite key. -/
def saveAthleteFromEvent (db : DBState) (data : AthleteEventData)
    (eventID eventName : List Char) (now : Int) : DBState :=
  match db.athletes.find? (athleteExtP data.smoothCompID) with
  | none =>
    let athlete := createdAthleteRow db data now
    saveRegistrationStep
      { db with
        athletes := db.athletes ++ [athlete]
        nextAthleteID := db.nextAthleteID + 1 }
      athlete.id data eventID eventName now
  | some existing =>
    let athlete := updatedAthleteRow db data now existing
    saveRegistrationStep
      { db with
        athletes :=
          db.athletes.map (fun a => if a.id == existing.id then athlete else a) }
      athlete.id data eventID eventName now

/-- Go `SaveAcademy`: find by external id; update (carrying forward the
row identity and creation timestamp, as the source does explicitly) or
create. -/
def SaveAcademy (db : DBState) (academy : AcademyRow) (now : Int) : DBState :=
  match db.academies.find? (fun a => a.externalID == academy.externalID) with
  | some existing =>
    { db with
      academies :=
        db.academies.map (fun a =>
          if a.id == existing.id then
            { academy with id := existing.id, createdAt := existing.createdAt }
          else a) }
  | none =>
    { db with
      academies :=
        db.academies ++
          [{ academy with
              id := db.nextAcademyID
              createdAt := if academy.createdAt = 0 then now else academy.createdAt }]
      nextAcademyID := db.nextAcademyID + 1 }

/-- Uniqueness and key-freshness invariants of the store (the unique
indexes and primary-key sequences of the schema). -/
def DBWF (db : DBState) : Prop :=
  db.athletes.Pairwise (fun a b => a.id ≠ b.id) ∧
  db.athletes.Pairwise (fun a b => a.externalID ≠ b.externalID) ∧
  (∀ a ∈ db.athletes, a.id < db.nextAthleteID) ∧
  db.registrations.Pairwise (fun r s => r.id ≠ s.id) ∧
  db.registrations.Pairwise (fun r s =>
    ¬(r.athleteID = s.athleteID ∧ r.eventID = s.eventID ∧ r.division = s.division ∧
      r.ageCategory = s.ageCategory ∧ r.rank = s.rank ∧ r.weightClass = s.weightClass)) ∧
  (∀ r ∈ db.registrations, r.id < db.nextRegistrationID) ∧
  (∀ r ∈ db.registrations, r.athleteID < db.nextAthleteID) ∧
  db.academies.Pairwise (fun a b => a.id ≠ b.id) ∧
  db.academies.Pairwise (fun a b => a.externalID ≠ b.externalID) ∧
  (∀ a ∈ db.academies, a.id < db.nextAcademyID)

/-- The empty store. -/
def emptyDB : DBState := ⟨[], [], [], 0, 0, 0⟩

/-- A concrete extracted athlete record for the counterexample. -/
def sampleAthleteData : AthleteEventData :=
  { smoothCompID := strL "77", firstName := strL "Ana", lastName := strL "Silva"
    middleName := [], fullName := strL "Ana Silva", country := strL "Brazil"
    countryCode := strL "BR", birthYear := 1990, age := 30
    academyName := [], affiliationName := [], profileURL := strL "p/77"
    imageURL := [], division := strL "Women", ageCategory := strL "Adults"
    rank := strL "Advanced", weightClass := strL "-60 kg"
    actualWeight := 0, seed := 0, ranking := 0, gender := strL "female" }

/-- A concrete academy record for the upsert witness. -/
def sampleAcademyRow : AcademyRow :=
  { id := 0, externalID := strL "ac9", name := strL "Alpha", slug := strL "alpha"
    country := strL "Brazil", countryCode := strL "BR", logoURL := [], coverURL := []
    bio := [], website := [], instagram := [], facebook := []
    totalWins := 0, totalLosses := 0, athleteCount := 0, goldMedals := 0
    silverMedals := 0, bronzeMedals := 0, scrapedAt := 0, createdAt := 0 }

/-! ### Relating `containsStr` to the mathematical substring relation -/

lemma startsWithL_append (pat b : List Char) : startsWithL (pat ++ b) pat = true := by
  induction pat with
  | nil => cases b <;> simp [startsWithL]
  | cons p ps ih => simp [startsWithL, ih]

lemma containsStr_of_startsWith {s pat : List Char} (h : startsWithL s pat = true) :
    containsStr s pat = true := by
  cases s <;> simp [containsStr, subIndex, h]

lemma containsStr_cons {t pat : List Char} (c : Char) (h : containsStr t pat = true) :
    containsStr (c :: t) pat = true := by
  by_cases hs : startsWithL (c :: t) pat = true
  · simp [containsStr, subIndex, hs]
  · simp [containsStr, subIndex, hs] at h ⊢
    exact h

lemma containsStr_of_occursIn {pat s : List Char} (h : OccursIn pat s) :
    containsStr s pat = true := by
  obtain ⟨a, b, rfl⟩ := h
  induction a with
  | nil => exact containsStr_of_startsWith (by simpa using startsWithL_append pat b)
  | cons c as ih => exact containsStr_cons c ih

lemma occursIn_map {pat s : List Char} (f : Char → Char) (h : OccursIn pat s) :
    OccursIn (pat.map f) (s.map f) := by
  obtain ⟨a, b, rfl⟩ := h
  exact ⟨a.map f, b.map f, by simp⟩

lemma occursIn_reverse {pat s : List Char} (h : OccursIn pat s) :
    OccursIn pat.reverse s.reverse := by
  obtain ⟨a, b, rfl⟩ := h
  exact ⟨b.reverse, a.reverse, by simp⟩

lemma occursIn_dropWhile {pat s : List Char} (hne : pat ≠ [])
    (hsp : ∀ c ∈ pat, isSpaceGo c = false) (h : OccursIn pat s) :
    OccursIn pat (s.dropWhile isSpaceGo) := by
  induction s with
  | nil =>
    obtain ⟨a, b, hab⟩ := h
    simp [List.append_eq_nil] at hab
    exact absurd hab.2.1 hne
  | cons c t ih =>
    by_cases hc : isSpaceGo c = true
    · rw [List.dropWhile_cons, if_pos hc]
      apply ih
      obtain ⟨a, b, hab⟩ := h
      cases a with
      | nil =>
        cases pat with
        | nil => exact absurd rfl hne
        | cons p ps =>
          simp only [List.nil_append, List.cons_append, List.cons.injEq] at hab
          exact absurd hc (by rw [hab.1]; simp [hsp p (by simp)])
      | cons a0 as =>
        refine ⟨as, b, ?_⟩
        simp only [List.cons_append, List.cons.injEq] at hab
        exact hab.2
    · rw [List.dropWhile_cons, if_neg hc]
      exact h

lemma occursIn_trimLower {pat s : List Char} (hne : pat ≠ [])
    (hsp : ∀ c ∈ pat, isSpaceGo c = false) (hfix : pat.map Char.toLower = pat)
    (h : OccursIn pat s) :
    containsStr (listToLower (trimSpace s)) pat = true := by
  have h1 := occursIn_dropWhile hne hsp h
  have h2 := occursIn_reverse h1
  have hne2 : pat.reverse ≠ [] := by simpa using hne
  have hsp2 : ∀ c ∈ pat.reverse, isSpaceGo c = false := by
    intro c hc
    exact hsp c (List.mem_reverse.mp hc)
  have h3 := occursIn_dropWhile hne2 hsp2 h2
  have h4 := occursIn_reverse h3
  rw [List.reverse_reverse] at h4
  have h5 := occursIn_map Char.toLower h4
  rw [hfix] at h5
  exact containsStr_of_occursIn h5

/-- C2: on the four-match example history the walk yields total wins 2,
wins by submission 1, wins by points 1, total losses 1, losses by decision 1,
with the bye contributing nothing; and in general any match whose outcome
contains "bye" or "walkover" leaves every accumulated count unchanged. -/
theorem walk_stats_example_and_bye_excluded :
    walkMatches exampleMatches =
      { totalWins := 2, totalLosses := 1, winsBySubmission := 1, winsByPoints := 1,
        winsByDecision := 0, winsByDQ := 0, lossesBySubmission := 0,
        lossesByPoints := 0, lossesByDecision := 1, lossesByDQ := 0 } ∧
    ∀ (st : ProfileStatsAcc) (m : ProfileEventMatch),
      (OccursIn (strL "bye") m.outcome ∨ OccursIn (strL "walkover") m.outcome) →
      applyEventMatchStats st m = st := by
  constructor
  · decide
  · intro st m h
    have hor : containsStr (listToLower (trimSpace m.outcome)) (strL "bye") = true ∨
        containsStr (listToLower (trimSpace m.outcome)) (strL "walkover") = true := by
      refine h.imp (fun hb => ?_) (fun hw => ?_)
      · exact occursIn_trimLower (by decide) (by decide) (by decide) hb
      · exact occursIn_trimLower (by decide) (by decide) (by decide) hw
    rcases hor with h' | h' <;> simp [applyEventMatchStats, h']

/-- Witness for C2: a concrete bye match leaves the empty accumulator
untouched. -/
theorem walk_stats_bye_witness :
    applyEventMatchStats emptyStats ⟨false, strL "bye"⟩ = emptyStats :=
  walk_stats_example_and_bye_excluded.2 emptyStats ⟨false, strL "bye"⟩
    (Or.inl ⟨[], [], by simp⟩)

/-! ### C3: merge precedence -/

/-- C3: after the event-walk merge, every field with a positive walk count
holds the walk value, every other field holds the page-summary value, and
the belt rank is untouched. -/
theorem merge_walk_precedence (d : AthleteProfileData) (s : ProfileStatsAcc) :
    (mergeProfileStatsFromEvents d s).totalWins =
      (if 0 < s.totalWins then some s.totalWins else d.totalWins) ∧
    (mergeProfileStatsFromEvents d s).totalLosses =
      (if 0 < s.totalLosses then some s.totalLosses else d.totalLosses) ∧
    (mergeProfileStatsFromEvents d s).winsBySubmission =
      (if 0 < s.winsBySubmission then some s.winsBySubmission else d.winsBySubmission) ∧
    (mergeProfileStatsFromEvents d s).winsByPoints =
      (if 0 < s.winsByPoints then some s.winsByPoints else d.winsByPoints) ∧
    (mergeProfileStatsFromEvents d s).winsByDecision =
      (if 0 < s.winsByDecision then some s.winsByDecision else d.winsByDecision) ∧
    (mergeProfileStatsFromEvents d s).winsByDQ =
      (if 0 < s.winsByDQ then some s.winsByDQ else d.winsByDQ) ∧
    (mergeProfileStatsFromEvents d s).lossesBySubmission =
      (if 0 < s.lossesBySubmission then some s.lossesBySubmission else d.lossesBySubmission) ∧
    (mergeProfileStatsFromEvents d s).lossesByPoints =
      (if 0 < s.lossesByPoints then some s.lossesByPoints else d.lossesByPoints) ∧
    (mergeProfileStatsFromEvents d s).lossesByDecision =
      (if 0 < s.lossesByDecision then some s.lossesByDecision else d.lossesByDecision) ∧
    (mergeProfileStatsFromEvents d s).lossesByDQ =
      (if 0 < s.lossesByDQ then some s.lossesByDQ else d.lossesByDQ) ∧
    (mergeProfileStatsFromEvents d s).beltRank = d.beltRank :=
  ⟨rfl, rfl, rfl, rfl, rfl, rfl, rfl, rfl, rfl, rfl, rfl⟩

/-! ### C6: backfill of aggregate totals -/

/-- Counterexample for C6 as stated: with one win sub-category set (to an
observed zero) and no aggregate, the backfill does not write the
sub-category sum into the aggregate. -/
theorem fillTotals_zero_sum_counterexample :
    zeroSubProfile.totalWins = none ∧
    zeroSubProfile.winsBySubmission = some 0 ∧
    winBreakdownSum zeroSubProfile = 0 ∧
    (fillTotalsFromBreakdown zeroSubProfile).totalWins ≠
      some (winBreakdownSum zeroSubProfile) := by
  decide

/-- C6 (amended): when the aggregate is absent or zero, the backfill writes
the sub-category sum exactly when that sum is positive and otherwise leaves
the aggregate unchanged, and re-applying the backfill changes nothing. -/
theorem fillTotals_backfill_amended (d : AthleteProfileData) :
    ((d.totalWins = none ∨ d.totalWins = some 0) →
      (fillTotalsFromBreakdown d).totalWins =
        (if 0 < winBreakdownSum d then some (winBreakdownSum d) else d.totalWins)) ∧
    ((d.totalLosses = none ∨ d.totalLosses = some 0) →
      (fillTotalsFromBreakdown d).totalLosses =
        (if 0 < lossBreakdownSum d then some (lossBreakdownSum d) else d.totalLosses)) ∧
    fillTotalsFromBreakdown (fillTotalsFromBreakdown d) = fillTotalsFromBreakdown d := by
  refine ⟨?_, ?_, ?_⟩
  · intro h
    show (if (d.totalWins = none ∨ d.totalWins = some 0) ∧ 0 < winBreakdownSum d then
        some (winBreakdownSum d) else d.totalWins) = _
    split_ifs <;> tauto
  · intro h
    show (if (d.totalLosses = none ∨ d.totalLosses = some 0) ∧ 0 < lossBreakdownSum d then
        some (lossBreakdownSum d) else d.totalLosses) = _
    split_ifs <;> tauto
  · have hw : winBreakdownSum (fillTotalsFromBreakdown d) = winBreakdownSum d := rfl
    have hl : lossBreakdownSum (fillTotalsFromBreakdown d) = lossBreakdownSum d := rfl
    have htw : ∀ e : AthleteProfileData, (fillTotalsFromBreakdown e).totalWins =
        (if (e.totalWins = none ∨ e.totalWins = some 0) ∧ 0 < winBreakdownSum e then
          some (winBreakdownSum e) else e.totalWins) := fun e => rfl
    have htl : ∀ e : AthleteProfileData, (fillTotalsFromBreakdown e).totalLosses =
        (if (e.totalLosses = none ∨ e.totalLosses = some 0) ∧ 0 < lossBreakdownSum e then
          some (lossBreakdownSum e) else e.totalLosses) := fun e => rfl
    apply AthleteProfileData.ext
    · rfl
    · rw [htw (fillTotalsFromBreakdown d), hw, htw d]
      split_ifs <;> simp_all
    · rfl
    · rfl
    · rfl
    · rfl
    · rw [htl (fillTotalsFromBreakdown d), hl, htl d]
      split_ifs <;> simp_all
    · rfl
    · rfl
    · rfl
    · rfl

/-- Witness for C6: on a record with sub-category wins 2 and 3 and no
aggregate, the backfill writes total wins 5. -/
theorem fillTotals_backfill_witness :
    (fillTotalsFromBreakdown sampleBreakdownProfile).totalWins = some 5 := by
  have h := (fillTotals_backfill_amended sampleBreakdownProfile).1 (Or.inl rfl)
  simpa using h

/-! ### C7: the pipeline never replaces a non-zero value with zero -/

lemma fieldStep_refl (o : Option Int) : FieldStep o o := Or.inl rfl

lemma fieldStep_write {o : Option Int} {c : Prop} [Decidable c] {v : Int}
    (h : c → o = none ∨ 0 < v) : FieldStep o (if c then some v else o) := by
  split_ifs with hc
  · rcases h hc with h' | h'
    · exact Or.inr (Or.inl h')
    · exact Or.inr (Or.inr ⟨v, h', rfl⟩)
  · exact Or.inl rfl

lemma fieldStep_trans {a b c : Option Int} (h1 : FieldStep a b) (h2 : FieldStep b c) :
    FieldStep a c := by
  rcases h2 with rfl | hb | ⟨j, hj, rfl⟩
  · exact h1
  · subst hb
    rcases h1 with h | h | ⟨k, hk, hk2⟩
    · exact Or.inr (Or.inl h.symm)
    · exact Or.inr (Or.inl h)
    · exact absurd hk2 (by simp)
  · exact Or.inr (Or.inr ⟨j, hj, rfl⟩)

lemma fieldZeroOK_of_fieldStep {o n : Option Int} (h : FieldStep o n) :
    FieldZeroOK o n := by
  rcases h with rfl | h | ⟨k, hk, rfl⟩
  · exact fun h0 => Or.inr h0
  · exact fun _ => Or.inl h
  · intro h0
    simp only [Option.some.injEq] at h0
    omega

lemma stepOK_refl (d : AthleteProfileData) : StepOK d d :=
  ⟨Or.inl rfl, Or.inl rfl, Or.inl rfl, Or.inl rfl, Or.inl rfl,
   Or.inl rfl, Or.inl rfl, Or.inl rfl, Or.inl rfl, Or.inl rfl⟩

lemma stepOK_trans {d e f : AthleteProfileData} (h1 : StepOK d e) (h2 : StepOK e f) :
    StepOK d f := by
  obtain ⟨a1, a2, a3, a4, a5, a6, a7, a8, a9, a10⟩ := h1
  obtain ⟨b1, b2, b3, b4, b5, b6, b7, b8, b9, b10⟩ := h2
  exact ⟨fieldStep_trans a1 b1, fieldStep_trans a2 b2, fieldStep_trans a3 b3,
    fieldStep_trans a4 b4, fieldStep_trans a5 b5, fieldStep_trans a6 b6,
    fieldStep_trans a7 b7, fieldStep_trans a8 b8, fieldStep_trans a9 b9,
    fieldStep_trans a10 b10⟩

lemma noZeroClobber_of_stepOK {d e : AthleteProfileData} (h : StepOK d e) :
    NoZeroClobber d e := by
  obtain ⟨a1, a2, a3, a4, a5, a6, a7, a8, a9, a10⟩ := h
  exact ⟨fieldZeroOK_of_fieldStep a1, fieldZeroOK_of_fieldStep a2,
    fieldZeroOK_of_fieldStep a3, fieldZeroOK_of_fieldStep a4,
    fieldZeroOK_of_fieldStep a5, fieldZeroOK_of_fieldStep a6,
    fieldZeroOK_of_fieldStep a7, fieldZeroOK_of_fieldStep a8,
    fieldZeroOK_of_fieldStep a9, fieldZeroOK_of_fieldStep a10⟩

lemma stepOK_merge (d : AthleteProfileData) (s : ProfileStatsAcc) :
    StepOK d (mergeProfileStatsFromEvents d s) := by
  refine ⟨?_, ?_, ?_, ?_, ?_, ?_, ?_, ?_, ?_, ?_⟩ <;>
    exact fieldStep_write (fun hc => Or.inr hc)

lemma stepOK_applyFightStats (c : ProfileStatsAcc) (d : AthleteProfileData) :
    StepOK d (applyFightStats c d) := by
  refine ⟨?_, ?_, ?_, ?_, ?_, ?_, ?_, ?_, ?_, ?_⟩ <;>
    exact fieldStep_write (fun hc => Or.inl hc.1)

lemma stepOK_fillTotals (d : AthleteProfileData) :
    StepOK d (fillTotalsFromBreakdown d) := by
  refine ⟨fieldStep_write (fun hc => Or.inr hc.2), ?_, ?_, ?_, ?_,
    fieldStep_write (fun hc => Or.inr hc.2), ?_, ?_, ?_, ?_⟩ <;>
    exact fieldStep_refl _

set_option maxHeartbeats 1000000 in
lemma stepOK_applyStat (d : AthleteProfileData) (label : List Char) (v : Int) :
    StepOK d (applyStat d label v) := by
  simp only [applyStat]
  split_ifs <;>
    refine ⟨?_, ?_, ?_, ?_, ?_, ?_, ?_, ?_, ?_, ?_⟩ <;>
    first
      | exact Or.inl rfl
      | exact Or.inr (Or.inl (by assumption))

set_option maxHeartbeats 1000000 in
lemma stepOK_applyLegendItem (isWin : Bool) (d : AthleteProfileData)
    (label : List Char) (v : Int) : StepOK d (applyLegendItem isWin d label v) := by
  simp only [applyLegendItem]
  split_ifs <;>
    refine ⟨?_, ?_, ?_, ?_, ?_, ?_, ?_, ?_, ?_, ?_⟩ <;>
    first
      | exact Or.inl rfl
      | exact Or.inr (Or.inl (by simp_all))

lemma stepOK_applyLegendStats (isWin : Bool) (items : List (List Char × Int))
    (d : AthleteProfileData) : StepOK d (applyLegendStats isWin items d) := by
  induction items generalizing d with
  | nil => exact stepOK_refl d
  | cons it rest ih =>
    exact stepOK_trans (stepOK_applyLegendItem isWin d it.1 it.2) (ih _)

/-- C7: every reconciliation step (legend extraction, label/value
application, badge-list counting, event-walk merge, backfill) satisfies the
no-zero-clobber contract on every statistics field: a zero is only ever
stored where the field was still unset, never over a non-zero value. -/
theorem pipeline_never_zero_clobbers :
    (∀ (isWin : Bool) (items : List (List Char × Int)) (d : AthleteProfileData),
      NoZeroClobber d (applyLegendStats isWin items d)) ∧
    (∀ (d : AthleteProfileData) (label : List Char) (v : Int),
      NoZeroClobber d (applyStat d label v)) ∧
    (∀ (c : ProfileStatsAcc) (d : AthleteProfileData),
      NoZeroClobber d (applyFightStats c d)) ∧
    (∀ (d : AthleteProfileData) (s : ProfileStatsAcc),
      NoZeroClobber d (mergeProfileStatsFromEvents d s)) ∧
    (∀ d : AthleteProfileData, NoZeroClobber d (fillTotalsFromBreakdown d)) :=
  ⟨fun isWin items d => noZeroClobber_of_stepOK (stepOK_applyLegendStats isWin items d),
   fun d label v => noZeroClobber_of_stepOK (stepOK_applyStat d label v),
   fun c d => noZeroClobber_of_stepOK (stepOK_applyFightStats c d),
   fun d s => noZeroClobber_of_stepOK (stepOK_merge d s),
   fun d => noZeroClobber_of_stepOK (stepOK_fillTotals d)⟩

/-! ### C4 and C5: host resolution -/

lemma detectLoop_eq_find (probe : List Char → Option ProbeResp)
    (eventID : List Char) (l : List (List Char)) :
    detectLoop probe eventID l =
      (match l.find? (probeAccepted probe eventID) with
       | some sub => candidateBase sub
       | none => strL "smoothcomp.com") := by
  induction l with
  | nil => rfl
  | cons s rest ih =>
    by_cases h : probeAccepted probe eventID s = true
    · simp [detectLoop, h, List.find?_cons_of_pos]
    · rw [detectLoop, if_neg (by simp [h]), ih,
        List.find?_cons_of_neg _ (by simp [h])]

lemma probeTraceLoop_eq (probe : List Char → Option ProbeResp)
    (eventID : List Char) (l : List (List Char)) :
    probeTraceLoop probe eventID l =
      (l.takeWhile (fun s => !probeAccepted probe eventID s)).map
          (eventProbeURL eventID) ++
        ((l.drop
            (l.takeWhile (fun s => !probeAccepted probe eventID s)).length).take 1).map
          (eventProbeURL eventID) := by
  induction l with
  | nil => rfl
  | cons s rest ih =>
    by_cases h : probeAccepted probe eventID s = true
    · simp [probeTraceLoop, h]
    · rw [probeTraceLoop, if_neg (by simp [h]), ih, List.takeWhile_cons]
      simp [h]

/-- C5: host resolution returns the first candidate of the fixed ordered
list whose probe is accepted (primary domain when none is), and the probes
actually issued are exactly the candidates up to and including the first
accepted one, so no candidate after an acceptance is ever probed; probe
errors and non-matching statuses merely reject a candidate. -/
theorem detect_first_acceptance_and_trace (probe : List Char → Option ProbeResp)
    (eventID : List Char) :
    DetectEventSubdomain probe eventID =
      (match subdomains.find? (probeAccepted probe eventID) with
       | some sub => candidateBase sub
       | none => strL "smoothcomp.com") ∧
    detectProbeTrace probe eventID =
      (subdomains.takeWhile (fun s => !probeAccepted probe eventID s)).map
          (eventProbeURL eventID) ++
        ((subdomains.drop
            (subdomains.takeWhile
              (fun s => !probeAccepted probe eventID s)).length).take 1).map
          (eventProbeURL eventID) :=
  ⟨detectLoop_eq_find probe eventID subdomains,
   probeTraceLoop_eq probe eventID subdomains⟩

/-- C4: evidence against the claim.  The `adcc` candidate is probed, the
probe answers 301 with a Location that does name that same candidate host
(`adcc.smoothcomp.com` occurs in it), yet `containsSubstring` rejects it,
so the resolver does not accept the candidate and falls back to the
primary domain. -/
theorem redirect_same_host_rejected :
    OccursIn (candidateBase (strL "adcc"))
      (strL "https://adcc.smoothcomp.com/en/event/25258") ∧
    redirectProbe (eventProbeURL (strL "25258") (strL "adcc")) =
      some ⟨301, strL "https://adcc.smoothcomp.com/en/event/25258"⟩ ∧
    containsSubstring (strL "https://adcc.smoothcomp.com/en/event/25258")
      (candidateBase (strL "adcc")) = false ∧
    probeAccepted redirectProbe (strL "25258") (strL "adcc") = false ∧
    DetectEventSubdomain redirectProbe (strL "25258") ≠ candidateBase (strL "adcc") ∧
    DetectEventSubdomain redirectProbe (strL "25258") = strL "smoothcomp.com" := by
  refine ⟨⟨strL "https://", strL "/en/event/25258", by decide⟩,
    by decide, by decide, by decide, by decide, by decide⟩

/-! ### C1: the embedded-array scanner -/

lemma byteIndex_append (a r : List Char) (b : Char) (ha : b ∉ a) :
    byteIndex (a ++ b :: r) b = some a.length := by
  induction a with
  | nil => simp [byteIndex]
  | cons c t ih =>
    have hcb : ¬c = b := fun h => ha (h ▸ List.mem_cons_self c t)
    simp [byteIndex, hcb, ih (fun h => ha (List.mem_cons_of_mem _ h))]

lemma scanEnd_string (s : List Char) (hs : StrChars s) (k : List Char) (d : Int) :
    scanEnd (s ++ '"' :: k) d true false =
      (scanEnd k d false false).map (· + (s.length + 1)) := by
  induction hs with
  | nil =>
    rcases hk : scanEnd k d false false with _ | n <;> simp [scanEnd, hk]
  | esc c s2 hs2 ih =>
    rcases hk : scanEnd k d false false with _ | n <;>
      simp [scanEnd, ih, hk] <;> omega
  | chr c s2 hc1 hc2 hs2 ih =>
    rcases hk : scanEnd k d false false with _ | n <;>
      simp [scanEnd, hc1, hc2, ih, hk] <;> omega

lemma scanEnd_items {s : List Char} (hs : ArrChars s) :
    ∀ (k : List Char) (d : Int), 0 < d →
      scanEnd (s ++ k) d false false =
        (scanEnd k d false false).map (· + s.length) := by
  induction hs with
  | nil =>
    intro k d hd
    rcases hk : scanEnd k d false false with _ | n <;> simp [hk]
  | chr c s2 hc1 hc2 hc3 hs2 ih =>
    intro k d hd
    rcases hk : scanEnd k d false false with _ | n <;>
      simp [scanEnd, hc1, hc2, hc3, ih k d hd, hk] <;> omega
  | str s2 t hstr ht ih =>
    intro k d hd
    have hshape : ('"' :: s2 ++ '"' :: t) ++ k = '"' :: (s2 ++ '"' :: (t ++ k)) := by
      simp
    rw [hshape]
    rcases hk : scanEnd k d false false with _ | n <;>
      simp [scanEnd, scanEnd_string s2 hstr, ih k d hd, hk] <;> omega
  | arr s2 t hinner ht ih2 ih =>
    intro k d hd
    have hshape : ('[' :: s2 ++ ']' :: t) ++ k = '[' :: (s2 ++ ']' :: (t ++ k)) := by
      simp
    have hd1 : (0 : Int) < d + 1 := by omega
    have hne : ¬(d = (0 : Int)) := by omega
    rw [hshape]
    rcases hk : scanEnd k d false false with _ | n <;>
      simp [scanEnd, ih2 (']' :: (t ++ k)) (d + 1) hd1, hne, ih k d hd, hk] <;> omega

lemma scanEnd_top (s : List Char) (hs : ArrChars s) (k : List Char) :
    scanEnd ('[' :: s ++ ']' :: k) 0 false false = some (s.length + 2) := by
  have h1 : (0 : Int) < 1 := by omega
  simp [scanEnd, scanEnd_items hs (']' :: k) 1 h1]
  omega

/-- C1: for every page body consisting of a first marker occurrence, then
bracket-free filler, then a well-formed bracket-balanced array (whose
quoted strings may contain escaped quotes and bracket characters), the
extractor returns exactly the span from the first opening bracket after
the marker to its matching closing bracket. -/
theorem extractEventsArray_correct (pre gap s post : List Char)
    (hm : subIndex (pre ++ markerStr ++ gap ++ ('[' :: s ++ ']' :: post)) markerStr
      = some pre.length)
    (hgap : '[' ∉ gap) (hs : ArrChars s) :
    extractEventsArray (pre ++ markerStr ++ gap ++ ('[' :: s ++ ']' :: post)) =
      some ('[' :: s ++ [']']) := by
  have hnotin : '[' ∉ markerStr ++ gap := by
    intro h
    rcases List.mem_append.mp h with h | h
    · exact absurd h (by decide)
    · exact hgap h
  have hd1 : (pre ++ markerStr ++ gap ++ ('[' :: s ++ ']' :: post)).drop pre.length
      = (markerStr ++ gap) ++ '[' :: (s ++ ']' :: post) := by
    have h : pre ++ markerStr ++ gap ++ ('[' :: s ++ ']' :: post)
        = pre ++ ((markerStr ++ gap) ++ '[' :: (s ++ ']' :: post)) := by simp
    rw [h, List.drop_left]
  have hd2 : (pre ++ markerStr ++ gap ++ ('[' :: s ++ ']' :: post)).drop
      (pre.length + (markerStr ++ gap).length) = '[' :: (s ++ ']' :: post) := by
    have h : pre ++ markerStr ++ gap ++ ('[' :: s ++ ']' :: post)
        = (pre ++ (markerStr ++ gap)) ++ '[' :: (s ++ ']' :: post) := by simp
    rw [h, ← List.length_append, List.drop_left]
  have hscan : scanEnd (('[' :: (s ++ ']' :: post))) 0 false false
      = some (s.length + 2) := by
    have h : '[' :: (s ++ ']' :: post) = '[' :: s ++ ']' :: post := by simp
    rw [h, scanEnd_top s hs post]
  have htake : ('[' :: (s ++ ']' :: post)).take (s.length + 2) = '[' :: s ++ [']'] := by
    have h : '[' :: (s ++ ']' :: post) = ('[' :: s ++ [']']) ++ post := by simp
    rw [h, List.take_left' (by simp)]
  have hbi : byteIndex (markerStr ++ gap ++ '[' :: (s ++ ']' :: post)) '['
      = some (markerStr ++ gap).length := by
    have h := byteIndex_append (markerStr ++ gap) (s ++ ']' :: post) '[' hnotin
    simpa [List.append_assoc] using h
  simp only [extractEventsArray, hm, hd1, hbi, hd2, hscan, htake]

/-- Witness for C1: a concrete page body with the marker, filler, and an
array containing a quoted string with a bracket and an escaped quote. -/
theorem extractEventsArray_witness :
    extractEventsArray ([] ++ markerStr ++ strL " = " ++ ('[' :: sampleArr ++ ']' :: [';']))
      = some ('[' :: sampleArr ++ [']']) := by
  refine extractEventsArray_correct [] (strL " = ") sampleArr [';'] (by decide) (by decide) ?_
  exact ArrChars.str ['[', '\\', '"', ']'] [',', '1']
    (StrChars.chr '[' _ (by decide) (by decide)
      (StrChars.esc '"' _ (StrChars.chr ']' _ (by decide) (by decide) StrChars.nil)))
    (ArrChars.chr ',' _ (by decide) (by decide) (by decide)
      (ArrChars.chr '1' _ (by decide) (by decide) (by decide) ArrChars.nil))

/-! ### C9: required-field filtering of extracted event records -/

lemma foldl_keep_filter {α β : Type} (f : α → β) (p : β → Bool) (l : List α)
    (acc : List β) :
    l.foldl (fun acc x => if p (f x) then acc ++ [f x] else acc) acc
      = acc ++ (l.map f).filter p := by
  induction l generalizing acc with
  | nil => simp
  | cons x xs ih =>
    by_cases h : p (f x) = true
    · simp [List.filter_cons, h, ih]
    · simp [List.filter_cons, h, ih]

/-- C9: in both extraction strategies a record is kept exactly when its
display name and canonical URL are both non-empty; records missing either
field never appear in the returned list (and hence never reach the
persistence loop, which iterates over that list). -/
theorem records_require_name_and_url :
    (∀ (eventType : List Char) (payload : List EmbeddedEvent),
      parseEventsFromScript eventType payload =
        (payload.map (eventFromEmbedded eventType)).filter
          (fun e => !e.eventURL.isEmpty && !e.name.isEmpty)) ∧
    (∀ (baseURL countryCode eventType : List Char) (cards : List EventCard),
      scrapeEventCards baseURL countryCode eventType cards =
        (cards.map (eventFromCard baseURL countryCode eventType)).filter
          (fun e => !e.eventURL.isEmpty && !e.name.isEmpty)) :=
  ⟨fun eventType payload =>
    foldl_keep_filter (eventFromEmbedded eventType)
      (fun e => !e.eventURL.isEmpty && !e.name.isEmpty) payload [],
   fun baseURL countryCode eventType cards =>
    foldl_keep_filter (eventFromCard baseURL countryCode eventType)
      (fun e => !e.eventURL.isEmpty && !e.name.isEmpty) cards []⟩

/-! ### C10: identifier extraction and the fetch prelude -/

lemma splitSlash_ne_nil (s : List Char) : splitSlash s ≠ [] := by
  cases s with
  | nil => simp [splitSlash]
  | cons c t =>
    simp only [splitSlash]
    split_ifs
    · simp
    · cases h : splitSlash t <;> simp

lemma splitSlash_no_slash {s : List Char} (h : '/' ∉ s) : splitSlash s = [s] := by
  induction s with
  | nil => rfl
  | cons c t ih =>
    have hc : ¬c = '/' := fun hc => h (hc ▸ List.mem_cons_self c t)
    have ht : '/' ∉ t := fun m => h (List.mem_cons_of_mem _ m)
    simp [splitSlash, hc, ih ht]

lemma splitSlash_two_of_slash {s : List Char} (h : '/' ∈ s) :
    2 ≤ (splitSlash s).length := by
  induction s with
  | nil => simp at h
  | cons c t ih =>
    by_cases hc : c = '/'
    · subst hc
      have hlen := List.length_pos.mpr (splitSlash_ne_nil t)
      have h1 : splitSlash ('/' :: t) = [] :: splitSlash t := by simp [splitSlash]
      rw [h1, List.length_cons]
      omega
    · have ht : '/' ∈ t := by
        rcases List.mem_cons.mp h with h | h
        · exact absurd h.symm hc
        · exact h
      rcases hsp : splitSlash t with _ | ⟨p0, ps⟩
      · exact absurd hsp (splitSlash_ne_nil t)
      · have h2 := ih ht
        rw [hsp] at h2
        have h1 : splitSlash (c :: t) = (c :: p0) :: ps := by
          simp [splitSlash, hc, hsp]
        rw [h1, List.length_cons]
        rw [List.length_cons] at h2
        omega

lemma getLastD_irrel {γ : Type} {l : List γ} (h : l ≠ []) (a b : γ) :
    l.getLastD a = l.getLastD b := by
  cases l with
  | nil => exact absurd rfl h
  | cons x xs => rw [List.getLastD_cons, List.getLastD_cons]

lemma takeWhile_append_single {p : Char → Bool} (a : Char) (ha : p a = false)
    (x : List Char) : ((x ++ [a]).takeWhile p) = x.takeWhile p := by
  induction x with
  | nil => simp [List.takeWhile_cons, ha]
  | cons b bs ih =>
    by_cases hb : p b = true <;> simp [List.takeWhile_cons, hb, ih]

lemma takeWhile_append_stop {p : Char → Bool} {l : List Char} (l2 : List Char)
    (h : ∃ x ∈ l, p x = false) : ((l ++ l2).takeWhile p) = l.takeWhile p := by
  induction l with
  | nil =>
    rcases h with ⟨x, hx, _⟩
    simp at hx
  | cons c t ih =>
    by_cases hc : p c = true
    · have h2 : ∃ x ∈ t, p x = false := by
        rcases h with ⟨x, hx, hpx⟩
        rcases List.mem_cons.mp hx with rfl | hx
        · exact absurd hc (by simp [hpx])
        · exact ⟨x, hx, hpx⟩
      simp [List.takeWhile_cons, hc, ih h2]
    · simp [List.takeWhile_cons, hc]

lemma takeWhile_all {p : Char → Bool} {l : List Char} (h : ∀ x ∈ l, p x = true) :
    l.takeWhile p = l := by
  induction l with
  | nil => rfl
  | cons c t ih =>
    simp [List.takeWhile_cons, h c (List.mem_cons_self c t),
      ih (fun x hx => h x (List.mem_cons_of_mem _ hx))]

lemma getLastD_splitSlash (s : List Char) :
    (splitSlash s).getLastD [] =
      (s.reverse.takeWhile (fun c => !(c == '/'))).reverse := by
  induction s with
  | nil => rfl
  | cons c t ih =>
    by_cases hc : c = '/'
    · subst hc
      have h0 : splitSlash ('/' :: t) = [] :: splitSlash t := by simp [splitSlash]
      rw [h0, List.getLastD_cons]
      have h1 : (splitSlash t).getLastD ([] : List Char) = (splitSlash t).getLastD [] := rfl
      rw [h1, ih, List.reverse_cons, takeWhile_append_single '/' (by simp) t.reverse]
    · rcases hsp : splitSlash t with _ | ⟨p0, ps⟩
      · exact absurd hsp (splitSlash_ne_nil t)
      · by_cases hps : ps = []
        · subst hps
          have hns : '/' ∉ t := by
            intro hmem
            have h2 := splitSlash_two_of_slash hmem
            rw [hsp] at h2
            simp at h2
          have hp0 : p0 = t := by
            have h2 := splitSlash_no_slash hns
            rw [hsp] at h2
            simpa using h2
          have hall : ∀ x ∈ (c :: t).reverse, (!(x == '/')) = true := by
            intro x hx
            rcases List.mem_cons.mp (List.mem_reverse.mp hx) with rfl | hx2
            · simp [hc]
            · have hxs : ¬x = '/' := fun hh => hns (hh ▸ hx2)
              simp [hxs]
          rw [takeWhile_all hall, List.reverse_reverse]
          have hsc : splitSlash (c :: t) = [c :: p0] := by
            simp [splitSlash, hc, hsp]
          rw [hsc, hp0]
          rfl
        · have hL : (splitSlash (c :: t)).getLastD [] = (splitSlash t).getLastD [] := by
            have hsc : splitSlash (c :: t) = (c :: p0) :: ps := by
              simp [splitSlash, hc, hsp]
            rw [hsc, List.getLastD_cons, hsp, List.getLastD_cons]
            exact getLastD_irrel hps _ _
          have hslash : '/' ∈ t := by
            by_contra hn
            have h2 := splitSlash_no_slash hn
            rw [hsp] at h2
            injection h2 with h3 h4
            exact hps h4
          rw [hL, ih, List.reverse_cons,
            takeWhile_append_stop [c] ⟨'/', List.mem_reverse.mpr hslash, by simp⟩]

lemma extractID_getLastD (url : List Char) :
    ExtractIDFromURL url = (splitSlash url).getLastD [] := by
  rw [ExtractIDFromURL]
  rw [if_pos (List.length_pos.mpr (splitSlash_ne_nil url))]

/-- C10: the identifier helper returns exactly the segment after the last
slash (the whole string when there is no slash); in particular it returns
the empty string for a URL ending in a slash, and the event-detail fetch
given only such a URL fails with the resolve error before issuing any
request (no probe and no page fetch). -/
theorem extractID_after_last_slash :
    (∀ url : List Char, ExtractIDFromURL url =
      (url.reverse.takeWhile (fun c => !(c == '/'))).reverse) ∧
    (∀ url : List Char, url ≠ [] → url.getLast? = some '/' →
      ExtractIDFromURL url = []) ∧
    (∀ (probe : List Char → Option ProbeResp) (url : List Char), url ≠ [] →
      url.getLast? = some '/' →
      fetchEventDetailsPrep probe [] url = (FetchPrep.errResolveID, [])) := by
  have part1 : ∀ url : List Char, ExtractIDFromURL url =
      (url.reverse.takeWhile (fun c => !(c == '/'))).reverse :=
    fun url => (extractID_getLastD url).trans (getLastD_splitSlash url)
  have part2 : ∀ url : List Char, url ≠ [] → url.getLast? = some '/' →
      ExtractIDFromURL url = [] := by
    intro url hne hlast
    rw [part1 url]
    rw [List.getLast?_eq_head?_reverse] at hlast
    rcases hrev : url.reverse with _ | ⟨c, rest⟩
    · rfl
    · rw [hrev] at hlast
      simp only [List.head?_cons, Option.some.injEq] at hlast
      subst hlast
      simp [List.takeWhile_cons]
  refine ⟨part1, part2, ?_⟩
  intro probe url hne hlast
  simp [fetchEventDetailsPrep, hne, part2 url hne hlast]

/-- Witness for C10: a URL ending in a slash makes the fetch prelude fail
with the resolve error, without a single probe request. -/
theorem extractID_after_last_slash_witness :
    fetchEventDetailsPrep noProbe [] (strL "https://smoothcomp.com/en/event/") =
      (FetchPrep.errResolveID, []) :=
  extractID_after_last_slash.2.2 noProbe
    (strL "https://smoothcomp.com/en/event/") (by decide) (by decide)

/-! ### C8: upsert idempotence — generic row-table lemmas -/

lemma countP_le_one_of_pairwise {α : Type} (p : α → Bool) (l : List α)
    (h : l.Pairwise (fun a b => ¬(p a = true ∧ p b = true))) : l.countP p ≤ 1 := by
  induction l with
  | nil => simp
  | cons a t ih =>
    rcases List.pairwise_cons.mp h with ⟨ha, ht⟩
    by_cases hp : p a = true
    · have hz : t.countP p = 0 := by
        rw [List.countP_eq_zero]
        exact fun b hb hpb => ha b hb ⟨hp, hpb⟩
      rw [List.countP_cons_of_pos _ _ hp, hz]
    · rw [List.countP_cons_of_neg _ _ (by simp [hp])]
      exact ih ht

lemma countP_eq_zero_of_find?_none {α : Type} {p : α → Bool} {l : List α}
    (h : l.find? p = none) : l.countP p = 0 := by
  rw [List.countP_eq_zero]
  intro a ha hpa
  rw [List.find?_eq_none] at h
  exact h a ha hpa

lemma countP_eq_one_of_find?_some {α : Type} {p : α → Bool} {l : List α} {x : α}
    (hfind : l.find? p = some x)
    (h : l.Pairwise (fun a b => ¬(p a = true ∧ p b = true))) : l.countP p = 1 := by
  have hpos : 0 < l.countP p :=
    List.countP_pos.mpr ⟨x, List.mem_of_find?_eq_some hfind, List.find?_some hfind⟩
  have hle := countP_le_one_of_pairwise p l h
  omega

lemma find?_append_of_none {α : Type} {p : α → Bool} {l1 : List α} (l2 : List α)
    (h : l1.find? p = none) : (l1 ++ l2).find? p = l2.find? p := by
  induction l1 with
  | nil => rfl
  | cons a t ih =>
    by_cases hp : p a = true
    · rw [List.find?_cons_of_pos _ hp] at h
      exact absurd h (by simp)
    · rw [List.find?_cons_of_neg _ (by simp [hp])] at h
      rw [List.cons_append, List.find?_cons_of_neg _ (by simp [hp])]
      exact ih h

lemma map_replace_of_fresh {α : Type} (idOf : α → Nat) {l : List α} (n : Nat)
    (x' : α) (h : ∀ a ∈ l, idOf a ≠ n) :
    l.map (fun a => if idOf a == n then x' else a) = l := by
  induction l with
  | nil => rfl
  | cons a t ih =>
    have ha : (idOf a == n) = false := by
      simp [h a (List.mem_cons_self a t)]
    simp only [List.map_cons, ha, Bool.false_eq_true, if_false]
    rw [ih (fun b hb => h b (List.mem_cons_of_mem _ hb))]

lemma find?_map_replace {α : Type} (p : α → Bool) (idOf : α → Nat) {l : List α}
    {x : α} (x' : α) (hpair : l.Pairwise (fun a b => idOf a ≠ idOf b))
    (hfind : l.find? p = some x) (hx' : p x' = true) :
    (l.map (fun a => if idOf a == idOf x then x' else a)).find? p = some x' := by
  induction l with
  | nil => simp at hfind
  | cons a t ih =>
    rcases List.pairwise_cons.mp hpair with ⟨ha, ht⟩
    by_cases hpa : p a = true
    · rw [List.find?_cons_of_pos _ hpa] at hfind
      injection hfind with hx
      subst hx
      simp only [List.map_cons, beq_self_eq_true, if_true]
      rw [List.find?_cons_of_pos _ hx']
    · rw [List.find?_cons_of_neg _ (by simp [hpa])] at hfind
      have hne : idOf a ≠ idOf x := ha x (List.mem_of_find?_eq_some hfind)
      have hb : (idOf a == idOf x) = false := by simp [hne]
      simp only [List.map_cons, hb, Bool.false_eq_true, if_false]
      rw [List.find?_cons_of_neg _ (by simp [hpa])]
      exact ih ht hfind

lemma countP_map_replace {α : Type} (p : α → Bool) (idOf : α → Nat) {l : List α}
    (n : Nat) (x' : α)
    (hpres : ∀ a ∈ l, p (if idOf a == n then x' else a) = p a) :
    (l.map (fun a => if idOf a == n then x' else a)).countP p = l.countP p := by
  induction l with
  | nil => rfl
  | cons a t ih =>
    have ha := hpres a (List.mem_cons_self a t)
    have iht := ih (fun b hb => hpres b (List.mem_cons_of_mem _ hb))
    by_cases hp : p a = true
    · rw [List.map_cons, List.countP_cons_of_pos _ _ (by rw [ha]; exact hp),
        List.countP_cons_of_pos _ _ hp, iht]
    · have hfa : p (if idOf a == n then x' else a) = false := by
        rw [ha]
        simp [hp]
      rw [List.map_cons, List.countP_cons_of_neg _ _ (by simpa using hfa),
        List.countP_cons_of_neg _ _ (by simp [hp]), iht]

lemma key_eq_of_pairwise {α β : Type} (k : α → β) {l : List α} {x y : α}
    (h : l.Pairwise (fun a b => k a ≠ k b)) (hx : x ∈ l) (hy : y ∈ l)
    (hk : k x = k y) : x = y := by
  induction l with
  | nil => simp at hx
  | cons a t ih =>
    rcases List.pairwise_cons.mp h with ⟨ha, ht⟩
    rcases List.mem_cons.mp hx with rfl | hx2
    · rcases List.mem_cons.mp hy with rfl | hy2
      · rfl
      · exact absurd hk (ha y hy2)
    · rcases List.mem_cons.mp hy with rfl | hy2
      · exact absurd hk.symm (ha x hx2)
      · exact ih ht hx2 hy2

lemma pairwise_id_map_replace {α : Type} (idOf : α → Nat) {l : List α} {n : Nat}
    {x' : α} (hid : idOf x' = n)
    (h : l.Pairwise (fun a b => idOf a ≠ idOf b)) :
    (l.map (fun a => if idOf a == n then x' else a)).Pairwise
      (fun a b => idOf a ≠ idOf b) := by
  rw [List.pairwise_map]
  refine h.imp ?_
  intro a b hab
  have hfa : idOf (if idOf a == n then x' else a) = idOf a := by
    by_cases hc : idOf a = n
    · simp [hc, hid]
    · simp [hc]
  have hfb : idOf (if idOf b == n then x' else b) = idOf b := by
    by_cases hc : idOf b = n
    · simp [hc, hid]
    · simp [hc]
  rw [hfa, hfb]
  exact hab

lemma SaveAcademy_of_none (db : DBState) (academy : AcademyRow) (now : Int)
    (hfind : db.academies.find? (fun a => a.externalID == academy.externalID) = none) :
    SaveAcademy db academy now =
      { db with
        academies :=
          db.academies ++
            [{ academy with
                id := db.nextAcademyID
                createdAt := if academy.createdAt = 0 then now else academy.createdAt }]
        nextAcademyID := db.nextAcademyID + 1 } := by
  simp only [SaveAcademy, hfind]

lemma SaveAcademy_of_some (db : DBState) (academy : AcademyRow) (now : Int)
    {x : AcademyRow}
    (hfind : db.academies.find? (fun a => a.externalID == academy.externalID) = some x) :
    SaveAcademy db academy now =
      { db with
        academies :=
          db.academies.map
            (fun a =>
              if a.id == AcademyRow.id x then
                { academy with id := x.id, createdAt := x.createdAt }
              else a) } := by
  simp only [SaveAcademy, hfind]

lemma update_step_facts {α : Type} (p : α → Bool) (idOf : α → Nat) {l : List α}
    {x : α} (x' : α) (hpair : l.Pairwise (fun a b => idOf a ≠ idOf b))
    (hfind : l.find? p = some x) (hx' : p x' = true) (hid : idOf x' = idOf x) :
    (l.map (fun a => if idOf a == idOf x then x' else a)).find? p = some x' ∧
    (l.map (fun a => if idOf a == idOf x then x' else a)).countP p = l.countP p ∧
    (l.map (fun a => if idOf a == idOf x then x' else a)).length = l.length ∧
    (l.map (fun a => if idOf a == idOf x then x' else a)).Pairwise
      (fun a b => idOf a ≠ idOf b) := by
  refine ⟨find?_map_replace p idOf x' hpair hfind hx', ?_, by simp,
    pairwise_id_map_replace idOf hid hpair⟩
  apply countP_map_replace
  intro a ha
  by_cases hc : idOf a = idOf x
  · have hax : a = x :=
      key_eq_of_pairwise idOf hpair ha (List.mem_of_find?_eq_some hfind) hc
    subst hax
    simp only [hc, beq_self_eq_true, if_true]
    rw [hx', List.find?_some hfind]
  · simp [hc]

lemma pairwise_id_append_fresh {α : Type} (idOf : α → Nat) {l : List α} {x : α}
    {n : Nat} (h : l.Pairwise (fun a b => idOf a ≠ idOf b))
    (hfresh : ∀ a ∈ l, idOf a < n) (hx : idOf x = n) :
    (l ++ [x]).Pairwise (fun a b => idOf a ≠ idOf b) := by
  refine List.pairwise_append.mpr ⟨h, List.pairwise_singleton _ _, ?_⟩
  intro a ha b hb
  have hbx : b = x := by simpa using hb
  subst hbx
  have := hfresh a ha
  omega

lemma find?_append_singleton {α : Type} {p : α → Bool} {l : List α} {x : α}
    (hnone : l.find? p = none) (hx : p x = true) :
    (l ++ [x]).find? p = some x := by
  rw [find?_append_of_none _ hnone, List.find?_cons_of_pos _ hx]

lemma countP_append_singleton {α : Type} {p : α → Bool} {l : List α} {x : α}
    (hnone : l.find? p = none) (hx : p x = true) :
    (l ++ [x]).countP p = 1 := by
  rw [List.countP_append, countP_eq_zero_of_find?_none hnone,
    List.countP_cons_of_pos _ _ hx]
  rfl

lemma SaveAcademy_facts (db : DBState) (academy : AcademyRow) (now now2 : Int)
    (hid : db.academies.Pairwise (fun a b => a.id ≠ b.id))
    (hext : db.academies.Pairwise (fun a b => a.externalID ≠ b.externalID))
    (hfresh : ∀ a ∈ db.academies, a.id < db.nextAcademyID) :
    (SaveAcademy db academy now).academies.countP
        (fun a => a.externalID == academy.externalID) = 1 ∧
    (SaveAcademy (SaveAcademy db academy now) academy now2).academies.countP
        (fun a => a.externalID == academy.externalID) = 1 ∧
    (SaveAcademy (SaveAcademy db academy now) academy now2).academies.length =
      (SaveAcademy db academy now).academies.length ∧
    (∃ b1 b2,
      (SaveAcademy db academy now).academies.find?
          (fun a => a.externalID == academy.externalID) = some b1 ∧
      (SaveAcademy (SaveAcademy db academy now) academy now2).academies.find?
          (fun a => a.externalID == academy.externalID) = some b2 ∧
      b2.id = b1.id ∧ b2.createdAt = b1.createdAt) := by
  have hextP : db.academies.Pairwise
      (fun a b => ¬((fun a : AcademyRow => a.externalID == academy.externalID) a = true ∧
        (fun a : AcademyRow => a.externalID == academy.externalID) b = true)) :=
    hext.imp (fun hne h12 => hne ((eq_of_beq h12.1).trans (eq_of_beq h12.2).symm))
  rcases hfind : db.academies.find? (fun a => a.externalID == academy.externalID)
    with _ | existing
  · -- create on the first invocation
    have e1 : (SaveAcademy db academy now).academies =
        db.academies ++
          [{ academy with
              id := db.nextAcademyID
              createdAt := if academy.createdAt = 0 then now else academy.createdAt }] := by
      rw [SaveAcademy_of_none db academy now hfind]
    have hpA1 : (fun a : AcademyRow => a.externalID == academy.externalID)
        { academy with
          id := db.nextAcademyID
          createdAt := if academy.createdAt = 0 then now else academy.createdAt } = true := by
      simp
    have hfind1 : (SaveAcademy db academy now).academies.find?
        (fun a => a.externalID == academy.externalID) = some
          { academy with
            id := db.nextAcademyID
            createdAt := if academy.createdAt = 0 then now else academy.createdAt } := by
      rw [e1]
      exact find?_append_singleton hfind hpA1
    have hcnt1 : (SaveAcademy db academy now).academies.countP
        (fun a => a.externalID == academy.externalID) = 1 := by
      rw [e1]
      exact countP_append_singleton hfind hpA1
    have hpair1 : (SaveAcademy db academy now).academies.Pairwise
        (fun a b => a.id ≠ b.id) := by
      rw [e1]
      exact pairwise_id_append_fresh AcademyRow.id hid hfresh rfl
    have e2 : (SaveAcademy (SaveAcademy db academy now) academy now2).academies =
        (SaveAcademy db academy now).academies.map
          (fun a =>
            if a.id == AcademyRow.id
                { academy with
                  id := db.nextAcademyID
                  createdAt := if academy.createdAt = 0 then now else academy.createdAt } then
              { academy with
                id :=
                  AcademyRow.id
                    { academy with
                      id := db.nextAcademyID
                      createdAt :=
                        if academy.createdAt = 0 then now else academy.createdAt }
                createdAt :=
                  AcademyRow.createdAt
                    { academy with
                      id := db.nextAcademyID
                      createdAt :=
                        if academy.createdAt = 0 then now else academy.createdAt } }
            else a) := by
      rw [SaveAcademy_of_some (SaveAcademy db academy now) academy now2 hfind1]
    have hstep := update_step_facts (fun a : AcademyRow => a.externalID == academy.externalID)
      AcademyRow.id
      { academy with
        id :=
          AcademyRow.id
            { academy with
              id := db.nextAcademyID
              createdAt := if academy.createdAt = 0 then now else academy.createdAt }
        createdAt :=
          AcademyRow.createdAt
            { academy with
              id := db.nextAcademyID
              createdAt := if academy.createdAt = 0 then now else academy.createdAt } }
      hpair1 hfind1 (by simp) rfl
    refine ⟨hcnt1, ?_, ?_, ?_⟩
    · rw [e2, hstep.2.1, hcnt1]
    · rw [e2, hstep.2.2.1]
    · exact ⟨_, _, hfind1, by rw [e2]; exact hstep.1, rfl, rfl⟩
  · -- update on the first invocation
    have hpx := List.find?_some hfind
    have e1 : (SaveAcademy db academy now).academies =
        db.academies.map
          (fun a =>
            if a.id == AcademyRow.id existing then
              { academy with id := existing.id, createdAt := existing.createdAt }
            else a) := by
      rw [SaveAcademy_of_some db academy now hfind]
    have hstep1 := update_step_facts
      (fun a : AcademyRow => a.externalID == academy.externalID) AcademyRow.id
      { academy with id := existing.id, createdAt := existing.createdAt }
      hid hfind (by simp) rfl
    have hfind1 : (SaveAcademy db academy now).academies.find?
        (fun a => a.externalID == academy.externalID) = some
          { academy with id := existing.id, createdAt := existing.createdAt } := by
      rw [e1]
      exact hstep1.1
    have hcnt0 : db.academies.countP
        (fun a => a.externalID == academy.externalID) = 1 :=
      countP_eq_one_of_find?_some hfind hextP
    have hcnt1 : (SaveAcademy db academy now).academies.countP
        (fun a => a.externalID == academy.externalID) = 1 := by
      rw [e1, hstep1.2.1, hcnt0]
    have hpair1 : (SaveAcademy db academy now).academies.Pairwise
        (fun a b => a.id ≠ b.id) := by
      rw [e1]
      exact hstep1.2.2.2
    have e2 : (SaveAcademy (SaveAcademy db academy now) academy now2).academies =
        (SaveAcademy db academy now).academies.map
          (fun a =>
            if a.id == AcademyRow.id
                { academy with id := existing.id, createdAt := existing.createdAt } then
              { academy with
                id :=
                  AcademyRow.id
                    { academy with id := existing.id, createdAt := existing.createdAt }
                createdAt :=
                  AcademyRow.createdAt
                    { academy with id := existing.id, createdAt := existing.createdAt } }
            else a) := by
      rw [SaveAcademy_of_some (SaveAcademy db academy now) academy now2 hfind1]
    have hstep2 := update_step_facts
      (fun a : AcademyRow => a.externalID == academy.externalID) AcademyRow.id
      { academy with
        id :=
          AcademyRow.id { academy with id := existing.id, createdAt := existing.createdAt }
        createdAt :=
          AcademyRow.createdAt
            { academy with id := existing.id, createdAt := existing.createdAt } }
      hpair1 hfind1 (by simp) rfl
    refine ⟨hcnt1, ?_, ?_, ?_⟩
    · rw [e2, hstep2.2.1, hcnt1]
    · rw [e2, hstep2.2.2.1]
    · exact ⟨_, _, hfind1, by rw [e2]; exact hstep2.1, rfl, rfl⟩

lemma createdAthleteRow_id (db : DBState) (data : AthleteEventData) (now : Int) :
    (createdAthleteRow db data now).id = db.nextAthleteID := rfl

lemma updatedAthleteRow_id (db : DBState) (data : AthleteEventData) (now : Int)
    (x : AthleteRow) : (updatedAthleteRow db data now x).id = x.id := rfl

lemma updatedAthleteRow_createdAt (db : DBState) (data : AthleteEventData)
    (now : Int) (x : AthleteRow) :
    (updatedAthleteRow db data now x).createdAt = x.createdAt := rfl

lemma athleteExtP_created (db : DBState) (data : AthleteEventData) (now : Int) :
    athleteExtP data.smoothCompID (createdAthleteRow db data now) = true := by
  simp [athleteExtP, createdAthleteRow]

lemma athleteExtP_updated {e : List Char} {x : AthleteRow}
    (db : DBState) (data : AthleteEventData) (now : Int)
    (h : athleteExtP e x = true) :
    athleteExtP e (updatedAthleteRow db data now x) = true := by
  simpa [athleteExtP, updatedAthleteRow] using h

lemma regKeyP_iff (aid : Nat) (eventID division ageCategory rank weightClass : List Char)
    (r : RegistrationRow) :
    regKeyP aid eventID division ageCategory rank weightClass r = true ↔
      (r.athleteID = aid ∧ r.eventID = eventID ∧ r.division = division ∧
       r.ageCategory = ageCategory ∧ r.rank = rank ∧ r.weightClass = weightClass) := by
  simp [regKeyP, and_assoc]

lemma regKeyP_incoming_new (aid : Nat) (data : AthleteEventData)
    (eventID eventName : List Char) (now : Int) (i : Nat) (c : Int) :
    regKeyP aid eventID data.division data.ageCategory data.rank data.weightClass
      { incomingRegRow aid data eventID eventName now with
          id := i, createdAt := c } = true := by
  simp [regKeyP, incomingRegRow]

lemma regKeyP_incoming_id (aid : Nat) (data : AthleteEventData)
    (eventID eventName : List Char) (now : Int) (i : Nat) :
    regKeyP aid eventID data.division data.ageCategory data.rank data.weightClass
      { incomingRegRow aid data eventID eventName now with id := i } = true := by
  simp [regKeyP, incomingRegRow]

lemma incomingRegRow_id_createdAt (aid : Nat) (data : AthleteEventData)
    (eventID eventName : List Char) (now : Int) (i : Nat) :
    ({ incomingRegRow aid data eventID eventName now with id := i } :
      RegistrationRow).createdAt = 0 := rfl

lemma saveReg_of_none (db : DBState) (athleteID : Nat) (data : AthleteEventData)
    (eventID eventName : List Char) (now : Int)
    (hfind : db.registrations.find?
      (regKeyP athleteID eventID data.division data.ageCategory data.rank
        data.weightClass) = none) :
    saveRegistrationStep db athleteID data eventID eventName now =
      { db with
        registrations :=
          db.registrations ++
            [{ incomingRegRow athleteID data eventID eventName now with
                id := db.nextRegistrationID, createdAt := now }]
        nextRegistrationID := db.nextRegistrationID + 1 } := by
  simp only [saveRegistrationStep, hfind]

lemma saveReg_of_some (db : DBState) (athleteID : Nat) (data : AthleteEventData)
    (eventID eventName : List Char) (now : Int) {x : RegistrationRow}
    (hfind : db.registrations.find?
      (regKeyP athleteID eventID data.division data.ageCategory data.rank
        data.weightClass) = some x) :
    saveRegistrationStep db athleteID data eventID eventName now =
      { db with
        registrations :=
          db.registrations.map (fun r =>
            if r.id == RegistrationRow.id x then
              { incomingRegRow athleteID data eventID eventName now with id := x.id }
            else r) } := by
  simp only [saveRegistrationStep, hfind]

lemma saveAthlete_of_none (db : DBState) (data : AthleteEventData)
    (eventID eventName : List Char) (now : Int)
    (hfind : db.athletes.find? (athleteExtP data.smoothCompID) = none) :
    saveAthleteFromEvent db data eventID eventName now =
      saveRegistrationStep
        { db with
          athletes := db.athletes ++ [createdAthleteRow db data now]
          nextAthleteID := db.nextAthleteID + 1 }
        (createdAthleteRow db data now).id data eventID eventName now := by
  simp only [saveAthleteFromEvent, hfind]

lemma saveAthlete_of_some (db : DBState) (data : AthleteEventData)
    (eventID eventName : List Char) (now : Int) {x : AthleteRow}
    (hfind : db.athletes.find? (athleteExtP data.smoothCompID) = some x) :
    saveAthleteFromEvent db data eventID eventName now =
      saveRegistrationStep
        { db with
          athletes :=
            db.athletes.map (fun a =>
              if a.id == AthleteRow.id x then updatedAthleteRow db data now x else a) }
        (updatedAthleteRow db data now x).id data eventID eventName now := by
  simp only [saveAthleteFromEvent, hfind]

lemma saveAthlete_second (db1 : DBState) (data : AthleteEventData)
    (eventID eventName : List Char) (now2 : Int) (a1 : AthleteRow)
    (r1 : RegistrationRow)
    (hfindA1 : db1.athletes.find? (athleteExtP data.smoothCompID) = some a1)
    (hpairA1 : db1.athletes.Pairwise (fun a b => a.id ≠ b.id))
    (hfindR1 : db1.registrations.find?
      (regKeyP a1.id eventID data.division data.ageCategory data.rank
        data.weightClass) = some r1)
    (hpairR1 : db1.registrations.Pairwise (fun r s => r.id ≠ s.id)) :
    ∃ a2 r2,
      (saveAthleteFromEvent db1 data eventID eventName now2).athletes.find?
          (athleteExtP data.smoothCompID) = some a2 ∧
      a2.id = a1.id ∧ a2.createdAt = a1.createdAt ∧
      (saveAthleteFromEvent db1 data eventID eventName now2).athletes.countP
          (athleteExtP data.smoothCompID) =
        db1.athletes.countP (athleteExtP data.smoothCompID) ∧
      (saveAthleteFromEvent db1 data eventID eventName now2).athletes.length =
        db1.athletes.length ∧
      (saveAthleteFromEvent db1 data eventID eventName now2).registrations.find?
          (regKeyP a1.id eventID data.division data.ageCategory data.rank
            data.weightClass) = some r2 ∧
      r2.id = r1.id ∧ r2.createdAt = 0 ∧
      (saveAthleteFromEvent db1 data eventID eventName now2).registrations.countP
          (regKeyP a1.id eventID data.division data.ageCategory data.rank
            data.weightClass) =
        db1.registrations.countP
          (regKeyP a1.id eventID data.division data.ageCategory data.rank
            data.weightClass) ∧
      (saveAthleteFromEvent db1 data eventID eventName now2).registrations.length =
        db1.registrations.length := by
  have e1 := saveAthlete_of_some db1 data eventID eventName now2 hfindA1
  have hstepA := update_step_facts (athleteExtP data.smoothCompID) AthleteRow.id
    (updatedAthleteRow db1 data now2 a1) hpairA1 hfindA1
    (athleteExtP_updated db1 data now2 (List.find?_some hfindA1))
    (updatedAthleteRow_id db1 data now2 a1)
  have e2 := saveReg_of_some
    { db1 with
      athletes :=
        db1.athletes.map (fun a =>
          if a.id == AthleteRow.id a1 then updatedAthleteRow db1 data now2 a1 else a) }
    (updatedAthleteRow db1 data now2 a1).id data eventID eventName now2
    (x := r1) hfindR1
  have hath2 : (saveAthleteFromEvent db1 data eventID eventName now2).athletes =
      db1.athletes.map (fun a =>
        if a.id == AthleteRow.id a1 then updatedAthleteRow db1 data now2 a1 else a) := by
    rw [e1, e2]
  have hreg2 : (saveAthleteFromEvent db1 data eventID eventName now2).registrations =
      db1.registrations.map (fun r =>
        if r.id == RegistrationRow.id r1 then
          { incomingRegRow (updatedAthleteRow db1 data now2 a1).id data eventID
              eventName now2 with id := r1.id }
        else r) := by
    rw [e1, e2]
  have hstepR := update_step_facts
    (regKeyP a1.id eventID data.division data.ageCategory data.rank data.weightClass)
    RegistrationRow.id
    ({ incomingRegRow (updatedAthleteRow db1 data now2 a1).id data eventID
        eventName now2 with id := r1.id })
    hpairR1 hfindR1
    (regKeyP_incoming_id a1.id data eventID eventName now2 r1.id) rfl
  refine ⟨updatedAthleteRow db1 data now2 a1,
    { incomingRegRow (updatedAthleteRow db1 data now2 a1).id data eventID
        eventName now2 with id := r1.id },
    ?_, updatedAthleteRow_id db1 data now2 a1,
    updatedAthleteRow_createdAt db1 data now2 a1, ?_, ?_, ?_, rfl, rfl, ?_, ?_⟩
  · rw [hath2]
    exact hstepA.1
  · rw [hath2]
    exact hstepA.2.1
  · rw [hath2]
    exact hstepA.2.2.1
  · rw [hreg2]
    exact hstepR.1
  · rw [hreg2]
    exact hstepR.2.1
  · rw [hreg2]
    exact hstepR.2.2.1

lemma athleteExtP_pairwise_adapter {l : List AthleteRow} (e : List Char)
    (h : l.Pairwise (fun a b => a.externalID ≠ b.externalID)) :
    l.Pairwise (fun a b => ¬(athleteExtP e a = true ∧ athleteExtP e b = true)) :=
  h.imp (fun hne h12 => hne ((eq_of_beq h12.1).trans (eq_of_beq h12.2).symm))

lemma regKeyP_pairwise_adapter {l : List RegistrationRow} (aid : Nat)
    (eventID division ageCategory rank weightClass : List Char)
    (h : l.Pairwise (fun r s =>
      ¬(r.athleteID = s.athleteID ∧ r.eventID = s.eventID ∧ r.division = s.division ∧
        r.ageCategory = s.ageCategory ∧ r.rank = s.rank ∧
        r.weightClass = s.weightClass))) :
    l.Pairwise (fun r s =>
      ¬(regKeyP aid eventID division ageCategory rank weightClass r = true ∧
        regKeyP aid eventID division ageCategory rank weightClass s = true)) :=
  h.imp (fun hne h12 => hne (by
    obtain ⟨e1, e2, e3, e4, e5, e6⟩ := (regKeyP_iff _ _ _ _ _ _ _).mp h12.1
    obtain ⟨f1, f2, f3, f4, f5, f6⟩ := (regKeyP_iff _ _ _ _ _ _ _).mp h12.2
    exact ⟨e1.trans f1.symm, e2.trans f2.symm, e3.trans f3.symm, e4.trans f4.symm,
      e5.trans f5.symm, e6.trans f6.symm⟩))

lemma saveAthlete_first (db : DBState) (data : AthleteEventData)
    (eventID eventName : List Char) (now : Int) (hwf : DBWF db) :
    ∃ a1 r1,
      (saveAthleteFromEvent db data eventID eventName now).athletes.find?
          (athleteExtP data.smoothCompID) = some a1 ∧
      (saveAthleteFromEvent db data eventID eventName now).athletes.countP
          (athleteExtP data.smoothCompID) = 1 ∧
      (saveAthleteFromEvent db data eventID eventName now).athletes.Pairwise
          (fun a b => a.id ≠ b.id) ∧
      (saveAthleteFromEvent db data eventID eventName now).registrations.find?
          (regKeyP a1.id eventID data.division data.ageCategory data.rank
            data.weightClass) = some r1 ∧
      (saveAthleteFromEvent db data eventID eventName now).registrations.countP
          (regKeyP a1.id eventID data.division data.ageCategory data.rank
            data.weightClass) = 1 ∧
      (saveAthleteFromEvent db data eventID eventName now).registrations.Pairwise
          (fun r s => r.id ≠ s.id) := by
  obtain ⟨hAid, hAext, hAfresh, hRid, hRkey, hRfresh, hRath, hCid, hCext, hCfresh⟩ := hwf
  rcases hfindA : db.athletes.find? (athleteExtP data.smoothCompID) with _ | existing
  · -- the athlete is created
    have e1 := saveAthlete_of_none db data eventID eventName now hfindA
    have hfindR : db.registrations.find?
        (regKeyP (createdAthleteRow db data now).id eventID data.division
          data.ageCategory data.rank data.weightClass) = none := by
      rw [List.find?_eq_none]
      intro r hr hkey
      obtain ⟨h61, -⟩ := (regKeyP_iff _ _ _ _ _ _ _).mp hkey
      rw [createdAthleteRow_id] at h61
      have hlt := hRath r hr
      omega
    have e2 := saveReg_of_none
      { db with
        athletes := db.athletes ++ [createdAthleteRow db data now]
        nextAthleteID := db.nextAthleteID + 1 }
      (createdAthleteRow db data now).id data eventID eventName now hfindR
    have hath1 : (saveAthleteFromEvent db data eventID eventName now).athletes =
        db.athletes ++ [createdAthleteRow db data now] := by
      rw [e1, e2]
    have hreg1 : (saveAthleteFromEvent db data eventID eventName now).registrations =
        db.registrations ++
          [{ incomingRegRow (createdAthleteRow db data now).id data eventID
              eventName now with id := db.nextRegistrationID, createdAt := now }] := by
      rw [e1, e2]
    refine ⟨createdAthleteRow db data now,
      { incomingRegRow (createdAthleteRow db data now).id data eventID eventName
          now with id := db.nextRegistrationID, createdAt := now },
      ?_, ?_, ?_, ?_, ?_, ?_⟩
    · rw [hath1]
      exact find?_append_singleton hfindA (athleteExtP_created db data now)
    · rw [hath1]
      exact countP_append_singleton hfindA (athleteExtP_created db data now)
    · rw [hath1]
      exact pairwise_id_append_fresh AthleteRow.id hAid hAfresh
        (createdAthleteRow_id db data now)
    · rw [hreg1]
      exact find?_append_singleton hfindR
        (regKeyP_incoming_new (createdAthleteRow db data now).id data eventID
          eventName now db.nextRegistrationID now)
    · rw [hreg1]
      exact countP_append_singleton hfindR
        (regKeyP_incoming_new (createdAthleteRow db data now).id data eventID
          eventName now db.nextRegistrationID now)
    · rw [hreg1]
      exact pairwise_id_append_fresh RegistrationRow.id hRid hRfresh rfl
  · -- the athlete is updated in place
    have hpx := List.find?_some hfindA
    have e1 := saveAthlete_of_some db data eventID eventName now hfindA
    have hstepA := update_step_facts (athleteExtP data.smoothCompID) AthleteRow.id
      (updatedAthleteRow db data now existing) hAid hfindA
      (athleteExtP_updated db data now hpx)
      (updatedAthleteRow_id db data now existing)
    have hcnt0 : db.athletes.countP (athleteExtP data.smoothCompID) = 1 :=
      countP_eq_one_of_find?_some hfindA (athleteExtP_pairwise_adapter _ hAext)
    rcases hfindR : db.registrations.find?
        (regKeyP (updatedAthleteRow db data now existing).id eventID data.division
          data.ageCategory data.rank data.weightClass) with _ | r0
    · -- the registration is created
      have e2 := saveReg_of_none
        { db with
          athletes :=
            db.athletes.map (fun a =>
              if a.id == AthleteRow.id existing then
                updatedAthleteRow db data now existing
              else a) }
        (updatedAthleteRow db data now existing).id data eventID eventName now hfindR
      have hath1 : (saveAthleteFromEvent db data eventID eventName now).athletes =
          db.athletes.map (fun a =>
            if a.id == AthleteRow.id existing then updatedAthleteRow db data now existing
            else a) := by
        rw [e1, e2]
      have hreg1 : (saveAthleteFromEvent db data eventID eventName now).registrations =
          db.registrations ++
            [{ incomingRegRow (updatedAthleteRow db data now existing).id data
                eventID eventName now with
                id := db.nextRegistrationID, createdAt := now }] := by
        rw [e1, e2]
      refine ⟨updatedAthleteRow db data now existing,
        { incomingRegRow (updatedAthleteRow db data now existing).id data eventID
            eventName now with id := db.nextRegistrationID, createdAt := now },
        ?_, ?_, ?_, ?_, ?_, ?_⟩
      · rw [hath1]
        exact hstepA.1
      · rw [hath1, hstepA.2.1]
        exact hcnt0
      · rw [hath1]
        exact hstepA.2.2.2
      · rw [hreg1]
        exact find?_append_singleton hfindR
          (regKeyP_incoming_new (updatedAthleteRow db data now existing).id data
            eventID eventName now db.nextRegistrationID now)
      · rw [hreg1]
        exact countP_append_singleton hfindR
          (regKeyP_incoming_new (updatedAthleteRow db data now existing).id data
            eventID eventName now db.nextRegistrationID now)
      · rw [hreg1]
        exact pairwise_id_append_fresh RegistrationRow.id hRid hRfresh rfl
    · -- the registration is updated in place
      have e2 := saveReg_of_some
        { db with
          athletes :=
            db.athletes.map (fun a =>
              if a.id == AthleteRow.id existing then
                updatedAthleteRow db data now existing
              else a) }
        (updatedAthleteRow db data now existing).id data eventID eventName now
        (x := r0) hfindR
      have hstepR := update_step_facts
        (regKeyP (updatedAthleteRow db data now existing).id eventID data.division
          data.ageCategory data.rank data.weightClass) RegistrationRow.id
        ({ incomingRegRow (updatedAthleteRow db data now existing).id data eventID
            eventName now with id := r0.id })
        hRid hfindR
        (regKeyP_incoming_id (updatedAthleteRow db data now existing).id data
          eventID eventName now r0.id) rfl
      have hcntR0 : db.registrations.countP
          (regKeyP (updatedAthleteRow db data now existing).id eventID data.division
            data.ageCategory data.rank data.weightClass) = 1 :=
        countP_eq_one_of_find?_some hfindR
          (regKeyP_pairwise_adapter _ _ _ _ _ _ hRkey)
      have hath1 : (saveAthleteFromEvent db data eventID eventName now).athletes =
          db.athletes.map (fun a =>
            if a.id == AthleteRow.id existing then updatedAthleteRow db data now existing
            else a) := by
        rw [e1, e2]
      have hreg1 : (saveAthleteFromEvent db data eventID eventName now).registrations =
          db.registrations.map (fun r =>
            if r.id == RegistrationRow.id r0 then
              { incomingRegRow (updatedAthleteRow db data now existing).id data
                  eventID eventName now with id := r0.id }
            else r) := by
        rw [e1, e2]
      refine ⟨updatedAthleteRow db data now existing,
        { incomingRegRow (updatedAthleteRow db data now existing).id data eventID
            eventName now with id := r0.id },
        ?_, ?_, ?_, ?_, ?_, ?_⟩
      · rw [hath1]
        exact hstepA.1
      · rw [hath1, hstepA.2.1]
        exact hcnt0
      · rw [hath1]
        exact hstepA.2.2.2
      · rw [hreg1]
        exact hstepR.1
      · rw [hreg1, hstepR.2.1]
        exact hcntR0
      · rw [hreg1]
        exact hstepR.2.2.2

/-- Counterexample for C8 as stated: upserting the identical record twice
leaves exactly one registration row, but the second (update) invocation
overwrites the stored creation timestamp with the zero value of the fresh
struct — the code copies forward only the row identity, not the creation
timestamp (unlike its athlete and academy counterparts). -/
theorem upsert_reg_createdAt_counterexample :
    ((saveAthleteFromEvent emptyDB sampleAthleteData (strL "1") (strL "E") 1).registrations.map
        (fun r => r.createdAt) = [1]) ∧
    ((saveAthleteFromEvent
        (saveAthleteFromEvent emptyDB sampleAthleteData (strL "1") (strL "E") 1)
        sampleAthleteData (strL "1") (strL "E") 2).registrations.map
        (fun r => r.createdAt) = [0]) := by
  decide

/-- C8 (amended): on a well-formed store, upserting the identical record
twice leaves exactly one athlete row per external identifier and one
registration row per composite natural key; the second invocation takes
the update branch, preserving the athlete row identity and creation
timestamp and the registration row identity, and creating no new rows.
The academy upsert likewise keeps one row per external identifier with its
identity and creation timestamp intact.  (The registration creation
timestamp is not preserved — see the counterexample.) -/
theorem upsert_one_row_per_key (db : DBState) (data : AthleteEventData)
    (eventID eventName : List Char) (academy : AcademyRow) (now now2 : Int)
    (hwf : DBWF db) :
    ((saveAthleteFromEvent db data eventID eventName now).athletes.countP
        (athleteExtP data.smoothCompID) = 1 ∧
     (saveAthleteFromEvent (saveAthleteFromEvent db data eventID eventName now)
        data eventID eventName now2).athletes.countP
        (athleteExtP data.smoothCompID) = 1) ∧
    ((saveAthleteFromEvent (saveAthleteFromEvent db data eventID eventName now)
        data eventID eventName now2).athletes.length =
      (saveAthleteFromEvent db data eventID eventName now).athletes.length ∧
     (saveAthleteFromEvent (saveAthleteFromEvent db data eventID eventName now)
        data eventID eventName now2).registrations.length =
      (saveAthleteFromEvent db data eventID eventName now).registrations.length) ∧
    (∃ a1 a2,
      (saveAthleteFromEvent db data eventID eventName now).athletes.find?
          (athleteExtP data.smoothCompID) = some a1 ∧
      (saveAthleteFromEvent (saveAthleteFromEvent db data eventID eventName now)
          data eventID eventName now2).athletes.find?
          (athleteExtP data.smoothCompID) = some a2 ∧
      a2.id = a1.id ∧ a2.createdAt = a1.createdAt ∧
      (saveAthleteFromEvent db data eventID eventName now).registrations.countP
          (regKeyP a1.id eventID data.division data.ageCategory data.rank
            data.weightClass) = 1 ∧
      (saveAthleteFromEvent (saveAthleteFromEvent db data eventID eventName now)
          data eventID eventName now2).registrations.countP
          (regKeyP a1.id eventID data.division data.ageCategory data.rank
            data.weightClass) = 1 ∧
      ∃ r1 r2,
        (saveAthleteFromEvent db data eventID eventName now).registrations.find?
            (regKeyP a1.id eventID data.division data.ageCategory data.rank
              data.weightClass) = some r1 ∧
        (saveAthleteFromEvent (saveAthleteFromEvent db data eventID eventName now)
            data eventID eventName now2).registrations.find?
            (regKeyP a1.id eventID data.division data.ageCategory data.rank
              data.weightClass) = some r2 ∧
        r2.id = r1.id) ∧
    ((SaveAcademy db academy now).academies.countP
        (fun a => a.externalID == academy.externalID) = 1 ∧
     (SaveAcademy (SaveAcademy db academy now) academy now2).academies.countP
        (fun a => a.externalID == academy.externalID) = 1 ∧
     (SaveAcademy (SaveAcademy db academy now) academy now2).academies.length =
       (SaveAcademy db academy now).academies.length ∧
     ∃ b1 b2,
       (SaveAcademy db academy now).academies.find?
           (fun a => a.externalID == academy.externalID) = some b1 ∧
       (SaveAcademy (SaveAcademy db academy now) academy now2).academies.find?
           (fun a => a.externalID == academy.externalID) = some b2 ∧
       b2.id = b1.id ∧ b2.createdAt = b1.createdAt) := by
  obtain ⟨-, -, -, -, -, -, -, hCid, hCext, hCfresh⟩ := id hwf
  obtain ⟨a1, r1, hfA, hcA, hpA, hfR, hcR, hpR⟩ :=
    saveAthlete_first db data eventID eventName now hwf
  obtain ⟨a2, r2, h2fA, h2id, h2cr, h2cnt, h2alen, h2fR, h2rid, h2rcr, h2rcnt,
    h2rlen⟩ :=
    saveAthlete_second (saveAthleteFromEvent db data eventID eventName now) data
      eventID eventName now2 a1 r1 hfA hpA hfR hpR
  obtain ⟨hq1, hq2, hq3, hq4⟩ := SaveAcademy_facts db academy now now2 hCid hCext hCfresh
  exact ⟨⟨hcA, by rw [h2cnt]; exact hcA⟩, ⟨h2alen, h2rlen⟩,
    ⟨a1, a2, hfA, h2fA, h2id, h2cr, hcR, by rw [h2rcnt]; exact hcR,
      r1, r2, hfR, h2fR, h2rid⟩,
    hq1, hq2, hq3, hq4⟩

/-- Witness for C8 (amended): on the empty store, saving a concrete record
twice keeps exactly one athlete row for its external identifier. -/
theorem upsert_one_row_witness :
    (saveAthleteFromEvent
        (saveAthleteFromEvent emptyDB sampleAthleteData (strL "1") (strL "E") 1)
        sampleAthleteData (strL "1") (strL "E") 2).athletes.countP
      (athleteExtP sampleAthleteData.smoothCompID) = 1 :=
  (upsert_one_row_per_key emptyDB sampleAthleteData (strL "1") (strL "E")
    sampleAcademyRow 1 2 (by simp [DBWF, emptyDB])).1.2

end Smoothcomp
